import Mathlib

/-!
Verification of the SentinelNet_FLS configuration-drift auditor core.

This file gives a shallow embedding of the Python source of the repository
(diff engine, severity classifier, auth decorator, topology repository and
VLAN-drift detector, baseline audit orchestration) and proves or refutes the
frozen specification claims about it.

Conventions of the embedding:
* pydantic models become Lean structures of the validated field values;
* `model_dump()` becomes an explicit association list `List (String × PyVal)`
  in field-declaration order, where `PyVal` models the JSON-ish values that
  `model_dump` produces (`None`, `str`, `bool`, `int`, `list[str]`, datetime);
* Python loops become structural recursions that preserve append order;
* SQLite tables become lists of row structures, SQL statements become the
  corresponding list transformations.
-/

namespace SentinelNet

/-- A value as produced by pydantic `model_dump()`: `None`, strings, booleans,
integers, lists of strings, or datetimes (modelled as `Nat` ticks). -/
inductive PyVal where
  | null
  | str (s : String)
  | bool (b : Bool)
  | int (n : Nat)
  | strList (l : List String)
  | dt (t : Nat)
deriving DecidableEq, Repr

/-- `model_dump` encoding of an `Optional[str]` field. -/
def optStr : Option String → PyVal
  | none => .null
  | some s => .str s

/-- `model_dump` encoding of an `Optional[bool]` field. -/
def optBool : Option Bool → PyVal
  | none => .null
  | some b => .bool b

/-- `model_dump` encoding of an `Optional[int]` field. -/
def optNat : Option Nat → PyVal
  | none => .null
  | some n => .int n

/-- `core/schemas.py` `FirewallRule`: chain and action are required, the rest
optional; `disabled` defaults to `False`. -/
structure FirewallRule where
  chain : String
  action : String
  src_address : Option String
  dst_address : Option String
  protocol : Option String
  src_port : Option String
  dst_port : Option String
  comment : Option String
  disabled : Bool
deriving DecidableEq, Repr

/-- `FirewallRule.model_dump()` in field-declaration order. -/
def FirewallRule.dump (r : FirewallRule) : List (String × PyVal) :=
  [("chain", .str r.chain), ("action", .str r.action),
   ("src_address", optStr r.src_address), ("dst_address", optStr r.dst_address),
   ("protocol", optStr r.protocol), ("src_port", optStr r.src_port),
   ("dst_port", optStr r.dst_port), ("comment", optStr r.comment),
   ("disabled", .bool r.disabled)]

/-- One entry of a per-field diff: included exactly when the two dumped values
differ, as `{field: {expected, actual}}`. -/
def chEntry (k : String) (e a : PyVal) : List (String × PyVal × PyVal) :=
  if e = a then [] else [(k, e, a)]

/-- Per-field diff of two firewall rules, walking `sorted(set(b) | set(c))` of
the dump keys (both dumps always carry the same fixed key set, so the sorted
union is the fixed sorted key list spelled out here). -/
def ruleChanges (b c : FirewallRule) : List (String × PyVal × PyVal) :=
  chEntry "action" (.str b.action) (.str c.action)
  ++ chEntry "chain" (.str b.chain) (.str c.chain)
  ++ chEntry "comment" (optStr b.comment) (optStr c.comment)
  ++ chEntry "disabled" (.bool b.disabled) (.bool c.disabled)
  ++ chEntry "dst_address" (optStr b.dst_address) (optStr c.dst_address)
  ++ chEntry "dst_port" (optStr b.dst_port) (optStr c.dst_port)
  ++ chEntry "protocol" (optStr b.protocol) (optStr c.protocol)
  ++ chEntry "src_address" (optStr b.src_address) (optStr c.src_address)
  ++ chEntry "src_port" (optStr b.src_port) (optStr c.src_port)

/-- `core/schemas.py` `InterfaceType` (serialized as its string value). -/
inductive InterfaceType where
  | ether | wlan | bridge | vlan | bonding | loopback | tunnel | other
deriving DecidableEq, Repr

/-- String value of the enum member, as `model_dump` serializes it. -/
def InterfaceType.value : InterfaceType → String
  | .ether => "ether"
  | .wlan => "wlan"
  | .bridge => "bridge"
  | .vlan => "vlan"
  | .bonding => "bonding"
  | .loopback => "loopback"
  | .tunnel => "tunnel"
  | .other => "other"

/-- `core/schemas.py` `Interface` (validated field values). -/
structure Interface where
  name : String
  interface_type : InterfaceType
  enabled : Bool
  running : Option Bool
  mac_address : Option String
  mtu : Option Nat
  ip_addresses : List String
  vlan_id : Option Nat
  vlan_interface : Option String
  comment : Option String
  slave : Option Bool
deriving DecidableEq, Repr

/-- `Interface.model_dump()` in field-declaration order. -/
def Interface.dump (r : Interface) : List (String × PyVal) :=
  [("name", .str r.name), ("interface_type", .str r.interface_type.value),
   ("enabled", .bool r.enabled), ("running", optBool r.running),
   ("mac_address", optStr r.mac_address), ("mtu", optNat r.mtu),
   ("ip_addresses", .strList r.ip_addresses), ("vlan_id", optNat r.vlan_id),
   ("vlan_interface", optStr r.vlan_interface), ("comment", optStr r.comment),
   ("slave", optBool r.slave)]

/-- Per-field diff of two interfaces, keys in sorted order. -/
def interfaceChanges (b c : Interface) : List (String × PyVal × PyVal) :=
  chEntry "comment" (optStr b.comment) (optStr c.comment)
  ++ chEntry "enabled" (.bool b.enabled) (.bool c.enabled)
  ++ chEntry "interface_type" (.str b.interface_type.value) (.str c.interface_type.value)
  ++ chEntry "ip_addresses" (.strList b.ip_addresses) (.strList c.ip_addresses)
  ++ chEntry "mac_address" (optStr b.mac_address) (optStr c.mac_address)
  ++ chEntry "mtu" (optNat b.mtu) (optNat c.mtu)
  ++ chEntry "name" (.str b.name) (.str c.name)
  ++ chEntry "running" (optBool b.running) (optBool c.running)
  ++ chEntry "slave" (optBool b.slave) (optBool c.slave)
  ++ chEntry "vlan_id" (optNat b.vlan_id) (optNat c.vlan_id)
  ++ chEntry "vlan_interface" (optStr b.vlan_interface) (optStr c.vlan_interface)

/-- `core/schemas.py` `Route`. -/
structure Route where
  destination : String
  gateway : Option String
  interface : Option String
  distance : Nat
  route_type : String
deriving DecidableEq, Repr

/-- `Route.model_dump()` in field-declaration order. -/
def Route.dump (r : Route) : List (String × PyVal) :=
  [("destination", .str r.destination), ("gateway", optStr r.gateway),
   ("interface", optStr r.interface), ("distance", .int r.distance),
   ("route_type", .str r.route_type)]

/-- Per-field diff of two routes, keys in sorted order. -/
def routeChanges (b c : Route) : List (String × PyVal × PyVal) :=
  chEntry "destination" (.str b.destination) (.str c.destination)
  ++ chEntry "distance" (.int b.distance) (.int c.distance)
  ++ chEntry "gateway" (optStr b.gateway) (optStr c.gateway)
  ++ chEntry "interface" (optStr b.interface) (optStr c.interface)
  ++ chEntry "route_type" (.str b.route_type) (.str c.route_type)

/-- `core/schemas.py` `DeviceConfig` (aggregate root). `collected_at` is a UTC
timestamp, modelled as `Nat`. -/
structure DeviceConfig where
  hostname : String
  vendor : String
  model : Option String
  os_version : Option String
  interfaces : List Interface
  routes : List Route
  firewall_rules : List FirewallRule
  collected_at : Nat
deriving DecidableEq, Repr

/-- The key set of `DeviceConfig.model_dump()`, in field-declaration order. -/
def deviceDumpKeys : List String :=
  ["hostname", "vendor", "model", "os_version",
   "interfaces", "routes", "firewall_rules", "collected_at"]

/-- The keys of a config's `model_dump()`: pydantic always emits every field,
so the key set does not depend on the config's values. -/
def DeviceConfig.dumpKeys (_ : DeviceConfig) : List String := deviceDumpKeys

/-- `model_dump()[k]` for the scalar (non-list) keys of `DeviceConfig`;
`.null` doubles as Python's `dict.get` default for an absent key.  The list
valued keys are filtered out before any value lookup by
`_compare_scalar_fields`, so they are never fetched through this function. -/
def DeviceConfig.scalarGet (cfg : DeviceConfig) (k : String) : PyVal :=
  if k = "hostname" then .str cfg.hostname
  else if k = "vendor" then .str cfg.vendor
  else if k = "model" then optStr cfg.model
  else if k = "os_version" then optStr cfg.os_version
  else if k = "collected_at" then .dt cfg.collected_at
  else .null

/-- `_LIST_FIELDS` of `core/diff_engine.py`. -/
def LIST_FIELDS : List String := ["interfaces", "routes"]

/-- `_FIREWALL_FIELD` of `core/diff_engine.py`. -/
def FIREWALL_FIELD : String := "firewall_rules"

/-- `_DEFAULT_EXCLUDE` of `core/diff_engine.py`. -/
def DEFAULT_EXCLUDE : List String := ["collected_at"]

/-- Code-point comparison of strings, as Python compares them in `sorted`. -/
def charListLe : List Char → List Char → Bool
  | [], _ => true
  | _ :: _, [] => false
  | a :: as, b :: bs =>
    if a.val < b.val then true
    else if b.val < a.val then false
    else charListLe as bs

/-- `a <= b` on strings by code points. -/
def strLe (a b : String) : Bool := charListLe a.data b.data

/-- Insertion step of the string sort. -/
def insertStr (s : String) : List String → List String
  | [] => [s]
  | t :: ts => if strLe s t then s :: t :: ts else t :: insertStr s ts

/-- Python `sorted` on a list of strings (insertion sort by code points). -/
def sortStrs : List String → List String
  | [] => []
  | s :: ss => insertStr s (sortStrs ss)

/-- A value stored in one of the `added` / `removed` / `modified` dicts of a
`DiffReport`:
* `scalar v` — a raw dumped value (`report.removed[key] = expected` and the
  `added` analogue of `_compare_scalar_fields`);
* `expAct e a` — the `{expected, actual}` dict of a modified scalar;
* `modEntries l` — the `[{index, changes}]` list of a modified list field;
* `itemEntries l` — the `[{index, item}]` list of an added/removed list field.
`isinstance(value, list)` of the severity classifier holds for the last two
and for a raw value that happens itself to be a list. -/
inductive BagVal where
  | scalar (v : PyVal)
  | expAct (expected actual : PyVal)
  | modEntries (l : List (Nat × List (String × PyVal × PyVal)))
  | itemEntries (l : List (Nat × List (String × PyVal)))
deriving DecidableEq, Repr

/-- `isinstance(value, list)` on a bag value. -/
def BagVal.isList : BagVal → Bool
  | .scalar (.strList _) => true
  | .scalar _ => false
  | .expAct _ _ => false
  | .modEntries _ => true
  | .itemEntries _ => true

/-- One `position_drift` entry of the firewall audit. -/
structure PosDrift where
  index : Nat
  expected_comment : Option String
  actual_comment : Option String
  expected_rule : List (String × PyVal)
  actual_rule : List (String × PyVal)
deriving DecidableEq, Repr

/-- One `parameter_drift` entry of the firewall audit. -/
structure ParamDrift where
  index : Nat
  comment : Option String
  changes : List (String × PyVal × PyVal)
deriving DecidableEq, Repr

/-- The `firewall_audit` dict of a `DiffReport`. -/
structure FwAudit where
  position_drift : List PosDrift
  parameter_drift : List ParamDrift
  missing_rules : List (Nat × List (String × PyVal))
  extra_rules : List (Nat × List (String × PyVal))
deriving DecidableEq, Repr

/-- The firewall audit a fresh `DiffReport` starts from. -/
def FwAudit.empty : FwAudit := ⟨[], [], [], []⟩

/-- `core/diff_engine.py` `DiffReport`.  The Python dicts become association
lists in insertion order. -/
structure DiffReport where
  added : List (String × BagVal)
  removed : List (String × BagVal)
  modified : List (String × BagVal)
  firewall_audit : FwAudit
deriving DecidableEq, Repr

/-- `DiffReport.has_firewall_drift`: any firewall bucket non-empty. -/
def DiffReport.hasFirewallDrift (r : DiffReport) : Bool :=
  !r.firewall_audit.position_drift.isEmpty
  || !r.firewall_audit.parameter_drift.isEmpty
  || !r.firewall_audit.missing_rules.isEmpty
  || !r.firewall_audit.extra_rules.isEmpty

/-- `DiffReport.has_drift`: any general bag or firewall bucket non-empty. -/
def DiffReport.hasDrift (r : DiffReport) : Bool :=
  !r.added.isEmpty || !r.removed.isEmpty || !r.modified.isEmpty
  || r.hasFirewallDrift

/-- The empty `DiffReport` (`DiffReport.__init__`). -/
def DiffReport.empty : DiffReport := ⟨[], [], [], FwAudit.empty⟩

namespace DiffEngine

/-- Key filter of `_compare_scalar_fields`: keep keys that are not list
fields, not the firewall field, and not excluded. -/
def scalarKeyFilter (excl : List String) (k : String) : Bool :=
  !(LIST_FIELDS.contains k) && k != FIREWALL_FIELD && !(excl.contains k)

/-- The `sorted(scalar_keys)` of `_compare_scalar_fields`: the union of the
filtered key sets of both dumps, sorted. -/
def scalarKeys (b c : DeviceConfig) (excl : List String) : List String :=
  sortStrs (((b.dumpKeys ++ c.dumpKeys).filter (scalarKeyFilter excl)).dedup)

/-- Body of the `_compare_scalar_fields` loop over the sorted keys, returning
`(added, removed, modified)` in key order.  `.get` yields `.null` both for a
null value and for an absent key, exactly as Python's `dict.get`; the
presence tests use the dump key sets. -/
def scalarWalk (b c : DeviceConfig) : List String →
    List (String × BagVal) × List (String × BagVal) × List (String × BagVal)
  | [] => ([], [], [])
  | k :: ks =>
    let rest := scalarWalk b c ks
    let expected := b.scalarGet k
    let actual := c.scalarGet k
    if expected = actual then rest
    else if !(c.dumpKeys.contains k) then
      (rest.1, (k, BagVal.scalar expected) :: rest.2.1, rest.2.2)
    else if !(b.dumpKeys.contains k) then
      ((k, BagVal.scalar actual) :: rest.1, rest.2.1, rest.2.2)
    else
      (rest.1, rest.2.1, (k, BagVal.expAct expected actual) :: rest.2.2)

/-- `DiffEngine._compare_scalar_fields`. -/
def compareScalarFields (b c : DeviceConfig) (excl : List String) :
    List (String × BagVal) × List (String × BagVal) × List (String × BagVal) :=
  scalarWalk b c (scalarKeys b c excl)

/-- `{index: i, item: dump x}` entries for a list tail, indices from `i`. -/
def enumItems (dump : α → List (String × PyVal)) (i : Nat) :
    List α → List (Nat × List (String × PyVal))
  | [] => []
  | x :: xs => (i, dump x) :: enumItems dump (i + 1) xs

/-- The `modifications` loop of `_compare_list_ordinal`: pairwise field diffs
over the common indices, an entry per index with a non-empty diff. -/
def ordMods (changes : α → α → List (String × PyVal × PyVal)) (i : Nat) :
    List α → List α → List (Nat × List (String × PyVal × PyVal))
  | [], _ => []
  | _ :: _, [] => []
  | b :: bs, c :: cs =>
    let ch := changes b c
    let rest := ordMods changes (i + 1) bs cs
    if ch = [] then rest else (i, ch) :: rest

/-- The `additions` loop of `_compare_list_ordinal`: current items beyond the
length of the baseline. -/
def ordAdded (dump : α → List (String × PyVal)) (i : Nat) :
    List α → List α → List (Nat × List (String × PyVal))
  | [], cs => enumItems dump i cs
  | _ :: _, [] => []
  | _ :: bs, _ :: cs => ordAdded dump (i + 1) bs cs

/-- The `removals` loop of `_compare_list_ordinal`: baseline items beyond the
length of the current list. -/
def ordRemoved (dump : α → List (String × PyVal)) (i : Nat) :
    List α → List α → List (Nat × List (String × PyVal))
  | bs, [] => enumItems dump i bs
  | [], _ :: _ => []
  | _ :: bs, _ :: cs => ordRemoved dump (i + 1) bs cs

/-- The `extra_rules` tail of `_compare_firewall_rules` once the baseline is
exhausted: every remaining current rule, dumped, with its index. -/
def fwExtras (i : Nat) : List FirewallRule → List (Nat × List (String × PyVal))
  | [] => []
  | c :: cs => (i, c.dump) :: fwExtras (i + 1) cs

/-- `DiffEngine._compare_firewall_rules`: the loop over
`range(max(len(baseline), len(current)))`, as a recursion that consumes both
lists in step, carrying the current index. -/
def compareFw (i : Nat) : List FirewallRule → List FirewallRule → FwAudit
  | [], cs => { FwAudit.empty with extra_rules := fwExtras i cs }
  | b :: bs, [] =>
    let rest := compareFw (i + 1) bs []
    { rest with missing_rules := (i, b.dump) :: rest.missing_rules }
  | b :: bs, c :: cs =>
    let rest := compareFw (i + 1) bs cs
    if b = c then rest
    else if b.comment = c.comment then
      { rest with parameter_drift :=
          ⟨i, b.comment, ruleChanges b c⟩ :: rest.parameter_drift }
    else
      { rest with position_drift :=
          ⟨i, b.comment, c.comment, b.dump, c.dump⟩ :: rest.position_drift }

/-- `report.X.setdefault(field_name, []).extend(entries)` performed only when
`entries` is non-empty: the dict gains the key exactly then. -/
def bagEntry (k : String) (mk : List β → BagVal) (l : List β) :
    List (String × BagVal) :=
  if l.isEmpty then [] else [(k, mk l)]

/-- `DiffEngine.compare`: scalar fields, then the ordinal comparison of
`interfaces` and `routes`, then the specialized firewall comparison, each
skipped when its field name is excluded. -/
def compare (b c : DeviceConfig) (excl : List String) : DiffReport :=
  let s := compareScalarFields b c excl
  let im := if excl.contains "interfaces" then []
            else ordMods interfaceChanges 0 b.interfaces c.interfaces
  let ia := if excl.contains "interfaces" then []
            else ordAdded Interface.dump 0 b.interfaces c.interfaces
  let ir := if excl.contains "interfaces" then []
            else ordRemoved Interface.dump 0 b.interfaces c.interfaces
  let rm := if excl.contains "routes" then []
            else ordMods routeChanges 0 b.routes c.routes
  let ra := if excl.contains "routes" then []
            else ordAdded Route.dump 0 b.routes c.routes
  let rr := if excl.contains "routes" then []
            else ordRemoved Route.dump 0 b.routes c.routes
  let fw := if excl.contains FIREWALL_FIELD then FwAudit.empty
            else compareFw 0 b.firewall_rules c.firewall_rules
  { added := s.1 ++ bagEntry "interfaces" BagVal.itemEntries ia
        ++ bagEntry "routes" BagVal.itemEntries ra
    removed := s.2.1 ++ bagEntry "interfaces" BagVal.itemEntries ir
        ++ bagEntry "routes" BagVal.itemEntries rr
    modified := s.2.2 ++ bagEntry "interfaces" BagVal.modEntries im
        ++ bagEntry "routes" BagVal.modEntries rm
    firewall_audit := fw }

end DiffEngine

/-- `DiffEngine.compare` with the default excluded field set
(`{"collected_at"}`): the `diff` of the specification. -/
def diff (b c : DeviceConfig) : DiffReport :=
  DiffEngine.compare b c DEFAULT_EXCLUDE

namespace Severity

/-- `Severity.COMPLIANT` (IntEnum value 0). -/
def COMPLIANT : Nat := 0
/-- `Severity.LOW` (IntEnum value 1). -/
def LOW : Nat := 1
/-- `Severity.MEDIUM` (IntEnum value 2). -/
def MEDIUM : Nat := 2
/-- `Severity.HIGH` (IntEnum value 3). -/
def HIGH : Nat := 3
/-- `Severity.CRITICAL` (IntEnum value 4). -/
def CRITICAL : Nat := 4

end Severity

/-- Some bag entry whose value is not a Python list (set non-emptiness of the
`scalar_keys` comprehension, and the `any(not isinstance(v, list) ...)`
checks of `classify_severity`). -/
def anyScalarEntry (bag : List (String × BagVal)) : Bool :=
  bag.any (fun kv => !kv.2.isList)

/-- `any(isinstance(v, list) for v in bag.values())`. -/
def anyListEntry (bag : List (String × BagVal)) : Bool :=
  bag.any (fun kv => kv.2.isList)

/-- `core/audit_report.py` `classify_severity`. -/
def classify_severity (r : DiffReport) : Nat :=
  if !r.hasDrift then Severity.COMPLIANT
  else
    let level := Severity.COMPLIANT
    let scalarKeysNonempty := anyScalarEntry r.modified
    let level :=
      if scalarKeysNonempty || !r.added.isEmpty || !r.removed.isEmpty then
        let hasScalarAdded :=
          if !r.added.isEmpty then anyScalarEntry r.added else false
        let hasScalarRemoved :=
          if !r.removed.isEmpty then anyScalarEntry r.removed else false
        if scalarKeysNonempty || hasScalarAdded || hasScalarRemoved then
          max level Severity.LOW
        else level
      else level
    let level :=
      if anyListEntry r.modified || anyListEntry r.added
          || anyListEntry r.removed then
        max level Severity.MEDIUM
      else level
    let level :=
      if !r.firewall_audit.parameter_drift.isEmpty then
        max level Severity.MEDIUM
      else level
    let level :=
      if !r.firewall_audit.missing_rules.isEmpty
          || !r.firewall_audit.extra_rules.isEmpty then
        max level Severity.HIGH
      else level
    let level :=
      if !r.firewall_audit.position_drift.isEmpty then
        max level Severity.CRITICAL
      else level
    level

/-- Modelled from the spec's severity table: the maximum over every rule that
fires (compliant when none does). -/
def severitySpec (r : DiffReport) : Nat :=
  List.foldr max Severity.COMPLIANT (
    (if anyScalarEntry r.added || anyScalarEntry r.removed
        || anyScalarEntry r.modified then [Severity.LOW] else [])
    ++ (if anyListEntry r.added || anyListEntry r.removed
        || anyListEntry r.modified then [Severity.MEDIUM] else [])
    ++ (if !r.firewall_audit.parameter_drift.isEmpty then [Severity.MEDIUM]
        else [])
    ++ (if !r.firewall_audit.missing_rules.isEmpty
          || !r.firewall_audit.extra_rules.isEmpty then [Severity.HIGH]
        else [])
    ++ (if !r.firewall_audit.position_drift.isEmpty then [Severity.CRITICAL]
        else []))

/-- Modelled from the claim's wording of the firewall comparator: walk every
index of `range(max(len B, len C))` and classify it by the stated priority
(`missing`, `extra`, equal, `parameter`, `position`). -/
def fwAuditSpec (B C : List FirewallRule) : FwAudit :=
  { missing_rules :=
      (List.range (max B.length C.length)).filterMap fun i =>
        if C.length ≤ i then (B[i]?).map (fun b => (i, b.dump)) else none
    extra_rules :=
      (List.range (max B.length C.length)).filterMap fun i =>
        if C.length ≤ i then none
        else if B.length ≤ i then (C[i]?).map (fun c => (i, c.dump))
        else none
    parameter_drift :=
      (List.range (max B.length C.length)).filterMap fun i =>
        match B[i]?, C[i]? with
        | some b, some c =>
          if b = c then none
          else if b.comment = c.comment then
            some ⟨i, b.comment, ruleChanges b c⟩
          else none
        | _, _ => none
    position_drift :=
      (List.range (max B.length C.length)).filterMap fun i =>
        match B[i]?, C[i]? with
        | some b, some c =>
          if b = c then none
          else if b.comment = c.comment then none
          else some ⟨i, b.comment, c.comment, b.dump, c.dump⟩
        | _, _ => none }

/-- How many of the four firewall buckets mention index `i`. -/
def FwAudit.bucketHits (a : FwAudit) (i : Nat) : Nat :=
  (if a.position_drift.any (fun e => e.index == i) then 1 else 0)
  + (if a.parameter_drift.any (fun e => e.index == i) then 1 else 0)
  + (if a.missing_rules.any (fun e => e.1 == i) then 1 else 0)
  + (if a.extra_rules.any (fun e => e.1 == i) then 1 else 0)

/-- Result of the `token_required` decorator of `api/blueprints/auth.py`:
either the wrapped view runs, or the request is rejected with 401 or 403. -/
inductive AuthResult where
  | allowed
  | unauthorized401
  | forbidden403
deriving DecidableEq, Repr

/-- Python truthiness of an optional string (absent and `""` are falsy). -/
def truthy : Option String → Bool
  | none => false
  | some s => !s.isEmpty

/-- `token_required` of `api/blueprints/auth.py`: `staticToken` is
`config.get("API_STATIC_TOKEN")`, `header` is
`request.headers.get(config.get("API_TOKEN_HEADER", "X-API-Token"))`. -/
def token_required (staticToken header : Option String) : AuthResult :=
  if !truthy header then .unauthorized401
  else if truthy staticToken && header != staticToken then .forbidden403
  else .allowed

/-- Modelled from the amended claim: a missing or empty token header is
rejected with 401 regardless of configuration; with a non-empty static token
configured, a presented non-empty token is allowed exactly when it matches
and rejected with 403 otherwise; with no static token configured, every
request presenting a non-empty token is allowed. -/
def tokenPolicyAmended (staticToken header : Option String) : AuthResult :=
  if !truthy header then .unauthorized401
  else if truthy staticToken then
    (if header = staticToken then .allowed else .forbidden403)
  else .allowed

/-- A correlated network node (`core/schemas.py` `NetworkNode`). -/
structure NetworkNode where
  mac_address : String
  ip_address : Option String
  hostname : Option String
  vlan_id : Option Nat
  switch_port : Option String
  vendor_oui : Option String
  first_seen : Option Nat
  last_seen : Option Nat
  authorized : Bool
deriving DecidableEq, Repr

/-- Insertion step of the integer sort. -/
def insertNat (n : Nat) : List Nat → List Nat
  | [] => [n]
  | m :: ms => if n ≤ m then n :: m :: ms else m :: insertNat n ms

/-- Python `sorted` on the VLAN id collection. -/
def sortNats : List Nat → List Nat
  | [] => []
  | n :: ns => insertNat n (sortNats ns)

/-- One drift dict built by `detect_vlan_drift`. -/
structure VlanDriftEntry where
  type : String
  mac_address : String
  ip_address : Option String
  expected_vlans : List Nat
  found_vlan : Nat
  switch_port : Option String
  severity : String
  description : String
deriving DecidableEq, Repr

/-- The drift dict literal of `detect_vlan_drift`. -/
def mkVlanDrift (mac : String) (ip : Option String) (allowed : List Nat)
    (found : Nat) (port : Option String) : VlanDriftEntry :=
  { type := "vlan_drift"
    mac_address := mac
    ip_address := ip
    expected_vlans := sortNats allowed
    found_vlan := found
    switch_port := port
    severity := "HIGH"
    description :=
      let vs := sortNats allowed
      s!"MAC {mac} detectado na VLAN {found} — autorizado apenas nas VLANs {vs}." }

/-- `detect_vlan_drift` of `core/services/topology_service.py`, with the
per-customer authorized map (`mac → authorized VLAN set`) passed explicitly
in place of the `get_authorized_vlan_map(customer_id)` call. -/
def detect_vlan_drift (authorizedMap : List (String × List Nat)) :
    List NetworkNode → List VlanDriftEntry
  | [] => []
  | n :: ns =>
    let rest := detect_vlan_drift authorizedMap ns
    match n.vlan_id with
    | none => rest
    | some v =>
      match authorizedMap.lookup n.mac_address with
      | none => rest
      | some allowed =>
        if v ∈ allowed then rest
        else mkVlanDrift n.mac_address n.ip_address allowed v n.switch_port
          :: rest

/-- The incident category `_push_drift_incidents` assigns to a drift dict. -/
def incidentCategory (e : VlanDriftEntry) : String :=
  if e.type = "vlan_drift" then "vlan_drift" else "unauthorized_node"

/-- Modelled from the claim's wording of the detector: among the current
nodes that carry a `vlan_id`, exactly those whose MAC is in the authorized
map but whose VLAN is not in its authorized set yield one entry, carrying the
MAC, IP, authorized set, observed VLAN and switch port. -/
def vlanDriftSpec (authorizedMap : List (String × List Nat))
    (nodes : List NetworkNode) : List VlanDriftEntry :=
  nodes.filterMap fun n =>
    match n.vlan_id, authorizedMap.lookup n.mac_address with
    | some v, some allowed =>
      if v ∈ allowed then none
      else some (mkVlanDrift n.mac_address n.ip_address allowed v n.switch_port)
    | _, _ => none

/-- One row of the `topology_nodes` table, for a fixed customer. -/
structure NodeRow where
  device_id : String
  mac_address : String
  ip_address : Option String
  hostname : Option String
  vlan_id : Option Nat
  switch_port : Option String
  vendor_oui : Option String
  first_seen : Nat
  last_seen : Nat
  authorized : Bool
deriving DecidableEq, Repr

/-- The column values passed to `upsert_node`. -/
structure UpsertArgs where
  device_id : String
  mac_address : String
  ip_address : Option String
  hostname : Option String
  vlan_id : Option Nat
  switch_port : Option String
  vendor_oui : Option String
  authorized : Bool
deriving DecidableEq, Repr

/-- SQL `COALESCE(excluded.x, topology_nodes.x)`. -/
def coalesce (new old : Option String) : Option String :=
  match new with
  | some s => some s
  | none => old

/-- The `ON CONFLICT ... DO UPDATE SET` clause of `upsert_node` applied to an
existing row: `device_id`, `ip_address`, `vlan_id`, `switch_port` are
overwritten, `hostname` and `vendor_oui` coalesced, `last_seen` set to the
collection time, `first_seen` untouched, and `authorized` kept at 1 when it
already is 1, otherwise set to the inserted value. -/
def applyUpsert (row : NodeRow) (a : UpsertArgs) (now : Nat) : NodeRow :=
  { row with
    device_id := a.device_id
    ip_address := a.ip_address
    hostname := coalesce a.hostname row.hostname
    vlan_id := a.vlan_id
    switch_port := a.switch_port
    vendor_oui := coalesce a.vendor_oui row.vendor_oui
    last_seen := now
    authorized := if row.authorized then true else a.authorized }

/-- `upsert_node` of `core/repositories/topology_repository.py` on the rows
of one customer: update on conflict of `mac_address`, insert otherwise with
`first_seen = last_seen = now`. -/
def upsert_node (db : List NodeRow) (a : UpsertArgs) (now : Nat) :
    List NodeRow :=
  if db.any (fun r => r.mac_address == a.mac_address) then
    db.map fun r =>
      if r.mac_address == a.mac_address then applyUpsert r a now else r
  else
    db ++ [{ device_id := a.device_id, mac_address := a.mac_address,
             ip_address := a.ip_address, hostname := a.hostname,
             vlan_id := a.vlan_id, switch_port := a.switch_port,
             vendor_oui := a.vendor_oui, first_seen := now, last_seen := now,
             authorized := a.authorized }]

/-- `set_node_authorized`: `UPDATE topology_nodes SET authorized = ? WHERE
mac_address = ?` for one customer. -/
def set_node_authorized (db : List NodeRow) (mac : String) (b : Bool) :
    List NodeRow :=
  db.map fun r =>
    if r.mac_address == mac then { r with authorized := b } else r

/-- `get_authorized_vlan_map` viewed at one MAC: the VLAN ids of the rows of
this customer with `authorized = 1 AND vlan_id IS NOT NULL` and this MAC. -/
def get_authorized_vlan_map (db : List NodeRow) (mac : String) : List Nat :=
  (db.filter fun r =>
      r.mac_address == mac && r.authorized && r.vlan_id.isSome).filterMap
    (·.vlan_id)

/-- The row of a MAC as `find?` sees it (the unique row of that MAC when the
table's uniqueness constraint holds). -/
def findRow (db : List NodeRow) (mac : String) : Option NodeRow :=
  db.find? (fun r => r.mac_address == mac)

/-- The `upsert_node` call `run_topology_scan` issues for one correlated
node: every column from the node, `authorized` left at its default `False`. -/
def scanUpsert (device_id : String) (db : List NodeRow) (n : NetworkNode)
    (now : Nat) : List NodeRow :=
  upsert_node db
    { device_id := device_id, mac_address := n.mac_address,
      ip_address := n.ip_address, hostname := n.hostname,
      vlan_id := n.vlan_id, switch_port := n.switch_port,
      vendor_oui := n.vendor_oui, authorized := false } now

/-- The node-persistence loop of `run_topology_scan` over the correlated
nodes of one device. -/
def runScanUpserts (device_id : String) (db : List NodeRow)
    (nodes : List NetworkNode) (now : Nat) : List NodeRow :=
  nodes.foldl (fun acc n => scanUpsert device_id acc n now) db

/-- A baseline file as `load_baseline` can find it: absent, present but
failing `DeviceConfig.model_validate_json`, or present and valid. -/
inductive BaselineFile where
  | missing
  | invalid (raw : String)
  | valid (cfg : DeviceConfig)
deriving DecidableEq, Repr

/-- `load_baseline` of `core/services/audit_service.py`: returns `None` when
the file does not exist, and also `None` when reading or validation raises
(the `except Exception` branch). -/
def load_baseline : BaselineFile → Option DeviceConfig
  | .missing => none
  | .invalid _ => none
  | .valid cfg => some cfg

/-- The effect of `audit_device` on the baseline file: when `load_baseline`
yields `None` the live snapshot is saved as the new baseline and the device
is reported drift-free; otherwise the file is untouched and the diff against
the baseline is classified.  Returns (file after the audit, `has_drift` of
the result, whether `save_baseline` was called). -/
def audit_device (file : BaselineFile) (live : DeviceConfig) :
    BaselineFile × Bool × Bool :=
  match load_baseline file with
  | none => (.valid live, false, true)
  | some base => (file, (DiffEngine.compare base live DEFAULT_EXCLUDE).hasDrift, false)

/-! ### Helper lemmas about the per-field diffs -/

theorem chEntry_eq_nil {k : String} {e a : PyVal} :
    chEntry k e a = [] ↔ e = a := by
  unfold chEntry; split <;> simp_all

theorem optStr_inj {a b : Option String} : optStr a = optStr b ↔ a = b := by
  cases a <;> cases b <;> simp [optStr]

theorem optBool_inj {a b : Option Bool} : optBool a = optBool b ↔ a = b := by
  cases a <;> cases b <;> simp [optBool]

theorem optNat_inj {a b : Option Nat} : optNat a = optNat b ↔ a = b := by
  cases a <;> cases b <;> simp [optNat]

theorem ifaceType_value_inj {a b : InterfaceType} :
    a.value = b.value ↔ a = b := by
  cases a <;> cases b <;> simp [InterfaceType.value]

theorem ruleChanges_eq_nil {b c : FirewallRule} :
    ruleChanges b c = [] ↔ b = c := by
  cases b; cases c
  simp only [ruleChanges, List.append_eq_nil, chEntry_eq_nil, optStr_inj,
    PyVal.str.injEq, PyVal.bool.injEq, FirewallRule.mk.injEq]
  tauto

theorem interfaceChanges_eq_nil {b c : Interface} :
    interfaceChanges b c = [] ↔ b = c := by
  cases b; cases c
  simp only [interfaceChanges, List.append_eq_nil, chEntry_eq_nil, optStr_inj,
    optBool_inj, optNat_inj, ifaceType_value_inj, PyVal.str.injEq,
    PyVal.bool.injEq, PyVal.strList.injEq, Interface.mk.injEq]
  tauto

theorem routeChanges_eq_nil {b c : Route} :
    routeChanges b c = [] ↔ b = c := by
  cases b; cases c
  simp only [routeChanges, List.append_eq_nil, chEntry_eq_nil, optStr_inj,
    PyVal.str.injEq, PyVal.int.injEq, Route.mk.injEq]
  tauto

/-! ### Diagonal lemmas: comparing a value with itself -/

theorem scalarWalk_self (x : DeviceConfig) :
    ∀ ks, DiffEngine.scalarWalk x x ks = ([], [], []) := by
  intro ks
  induction ks with
  | nil => rfl
  | cons k ks ih => simp [DiffEngine.scalarWalk, ih]

theorem ordMods_self {α : Type} (ch : α → α → List (String × PyVal × PyVal))
    (h : ∀ a, ch a a = []) : ∀ i l, DiffEngine.ordMods ch i l l = [] := by
  intro i l
  induction l generalizing i with
  | nil => rfl
  | cons a t ih => simp [DiffEngine.ordMods, h, ih]

theorem ordAdded_self {α : Type} (dump : α → List (String × PyVal)) :
    ∀ i l, DiffEngine.ordAdded dump i l l = [] := by
  intro i l
  induction l generalizing i with
  | nil => rfl
  | cons a t ih => simp [DiffEngine.ordAdded, ih]

theorem ordRemoved_self {α : Type} (dump : α → List (String × PyVal)) :
    ∀ i l, DiffEngine.ordRemoved dump i l l = [] := by
  intro i l
  induction l generalizing i with
  | nil => rfl
  | cons a t ih => simp [DiffEngine.ordRemoved, ih]

theorem compareFw_self : ∀ i l, DiffEngine.compareFw i l l = FwAudit.empty := by
  intro i l
  induction l generalizing i with
  | nil => rfl
  | cons a t ih => simp [DiffEngine.compareFw, ih]

/-! ### Scalar-walk structure lemmas -/

/-- Whether a bag value is a modified-scalar `{expected, actual}` dict. -/
def BagVal.isExpAct : BagVal → Bool
  | .expAct _ _ => true
  | _ => false

theorem scalarWalk_all_present (b c : DeviceConfig) :
    ∀ ks, (∀ k ∈ ks, deviceDumpKeys.contains k = true) →
      (DiffEngine.scalarWalk b c ks).1 = []
      ∧ (DiffEngine.scalarWalk b c ks).2.1 = []
      ∧ ((DiffEngine.scalarWalk b c ks).2.2).all (fun kv => kv.2.isExpAct)
          = true := by
  intro ks
  induction ks with
  | nil => intro _; exact ⟨rfl, rfl, rfl⟩
  | cons k ks ih =>
    intro h
    have hk : deviceDumpKeys.contains k = true := h k (List.mem_cons_self k ks)
    obtain ⟨h1, h2, h3⟩ := ih (fun k hm => h k (List.mem_cons_of_mem _ hm))
    by_cases hv : b.scalarGet k = c.scalarGet k <;>
      · simp_all [DiffEngine.scalarWalk, DeviceConfig.dumpKeys, BagVal.isExpAct]
        exact h3

theorem scalarKeys_default (b c : DeviceConfig) :
    DiffEngine.scalarKeys b c DEFAULT_EXCLUDE
      = ["hostname", "model", "os_version", "vendor"] := rfl

/-! ### Sample values used by the concrete theorems -/

/-- A minimal valid `DeviceConfig`. -/
def sampleConfig : DeviceConfig :=
  ⟨"router1", "mikrotik", none, none, [], [], [], 0⟩

/-- C7: comparing a configuration with itself yields a report with no drift
at all — every general bag and every firewall bucket is empty and
`has_drift` is false. -/
theorem compare_self_no_drift (x : DeviceConfig) :
    diff x x = DiffReport.empty ∧ (diff x x).hasDrift = false := by
  have hi : ∀ a : Interface, interfaceChanges a a = [] :=
    fun a => interfaceChanges_eq_nil.mpr rfl
  have hr : ∀ a : Route, routeChanges a a = [] :=
    fun a => routeChanges_eq_nil.mpr rfl
  have h : diff x x = DiffReport.empty := by
    unfold diff DiffEngine.compare
    simp [DiffEngine.compareScalarFields, scalarWalk_self, DEFAULT_EXCLUDE,
      ordMods_self _ hi, ordMods_self _ hr, ordAdded_self, ordRemoved_self,
      compareFw_self, DiffEngine.bagEntry, DiffReport.empty, FIREWALL_FIELD]
  exact ⟨h, by rw [h]; rfl⟩

/-- C3: the code contradicts the claim — when the baseline file exists but
fails schema validation, `load_baseline` returns `None` exactly as for a
missing file, and `audit_device` then saves the live snapshot over the
existing baseline file (third component: `save_baseline` was called). -/
theorem audit_overwrites_invalid_baseline :
    audit_device (BaselineFile.invalid "not a DeviceConfig JSON") sampleConfig
      = (BaselineFile.valid sampleConfig, false, true) := rfl

/-- C4 counterexample: with no static token configured and no token header
at all, the decorator rejects the request with 401 — the claim's
"every request is allowed through" is false for requests without a header. -/
theorem token_missing_dev_mode_401 :
    token_required none none = AuthResult.unauthorized401
    ∧ token_required none none ≠ AuthResult.allowed := by
  exact ⟨rfl, by decide⟩

/-- C4 (amended): a missing or empty token header yields 401 regardless of
configuration; with a non-empty static token configured, a presented
non-empty token mismatching it yields 403 and a matching one is allowed;
with no static token configured, any request presenting a non-empty token is
allowed. -/
theorem token_required_characterization (staticToken header : Option String) :
    token_required staticToken header = tokenPolicyAmended staticToken header := by
  unfold token_required tokenPolicyAmended
  cases header with
  | none => rfl
  | some s =>
    by_cases hs : s.isEmpty
    · simp [truthy, hs]
    · cases staticToken with
      | none => simp [truthy, hs]
      | some t =>
        by_cases ht : t.isEmpty
        · simp [truthy, hs, ht]
        · by_cases hst : s = t <;> simp [truthy, hs, ht, hst]

theorem bagEntry_all {β : Type} (k : String) (mk : List β → BagVal)
    (l : List β) (p : String × BagVal → Bool) (h : p (k, mk l) = true) :
    (DiffEngine.bagEntry k mk l).all p = true := by
  unfold DiffEngine.bagEntry; split <;> simp [h]

/-- C10: the scalar comparison step can never place a field in `added` or
`removed` — its `added` and `removed` outputs are always empty, every scalar
difference lands in `modified` as an `{expected, actual}` entry, and after a
full compare the `added` and `removed` bags hold only list-field entries
(`interfaces`/`routes`). -/
theorem scalar_diffs_only_modified (x y : DeviceConfig) :
    (DiffEngine.compareScalarFields x y DEFAULT_EXCLUDE).1 = []
    ∧ (DiffEngine.compareScalarFields x y DEFAULT_EXCLUDE).2.1 = []
    ∧ ((DiffEngine.compareScalarFields x y DEFAULT_EXCLUDE).2.2).all
        (fun kv => kv.2.isExpAct) = true
    ∧ ((diff x y).added).all
        (fun kv => (kv.1 == "interfaces" || kv.1 == "routes")
          && kv.2.isList) = true
    ∧ ((diff x y).removed).all
        (fun kv => (kv.1 == "interfaces" || kv.1 == "routes")
          && kv.2.isList) = true := by
  have hkeys : ∀ k ∈ (["hostname", "model", "os_version", "vendor"] :
      List String), deviceDumpKeys.contains k = true := by decide
  have hs := scalarWalk_all_present x y _ hkeys
  have hcsf : DiffEngine.compareScalarFields x y DEFAULT_EXCLUDE
      = DiffEngine.scalarWalk x y ["hostname", "model", "os_version", "vendor"] := by
    unfold DiffEngine.compareScalarFields
    rw [scalarKeys_default]
  have hci : "interfaces" ∉ DEFAULT_EXCLUDE := by decide
  have hcr : "routes" ∉ DEFAULT_EXCLUDE := by decide
  have hcf : FIREWALL_FIELD ∉ DEFAULT_EXCLUDE := by decide
  have hadd : (diff x y).added
      = DiffEngine.bagEntry "interfaces" BagVal.itemEntries
          (DiffEngine.ordAdded Interface.dump 0 x.interfaces y.interfaces)
        ++ DiffEngine.bagEntry "routes" BagVal.itemEntries
          (DiffEngine.ordAdded Route.dump 0 x.routes y.routes) := by
    unfold diff DiffEngine.compare
    simp [hci, hcr, hcf, hcsf, hs.1]
  have hrem : (diff x y).removed
      = DiffEngine.bagEntry "interfaces" BagVal.itemEntries
          (DiffEngine.ordRemoved Interface.dump 0 x.interfaces y.interfaces)
        ++ DiffEngine.bagEntry "routes" BagVal.itemEntries
          (DiffEngine.ordRemoved Route.dump 0 x.routes y.routes) := by
    unfold diff DiffEngine.compare
    simp [hci, hcr, hcf, hcsf, hs.2.1]
  refine ⟨by rw [hcsf]; exact hs.1, by rw [hcsf]; exact hs.2.1,
    by rw [hcsf]; exact hs.2.2, ?_, ?_⟩
  · rw [hadd, List.all_append,
      bagEntry_all _ _ _ _ (by rfl), bagEntry_all _ _ _ _ (by rfl)]
    rfl
  · rw [hrem, List.all_append,
      bagEntry_all _ _ _ _ (by rfl), bagEntry_all _ _ _ _ (by rfl)]
    rfl

/-! ### VLAN-drift detector lemmas -/

theorem detect_eq_spec (m : List (String × List Nat)) :
    ∀ ns, detect_vlan_drift m ns = vlanDriftSpec m ns := by
  intro ns
  induction ns with
  | nil => rfl
  | cons n ns ih =>
    unfold detect_vlan_drift vlanDriftSpec
    rw [List.filterMap_cons]
    cases hv : n.vlan_id with
    | none => simpa [hv] using ih
    | some v =>
      cases hl : m.lookup n.mac_address with
      | none => simpa [hv, hl] using ih
      | some allowed =>
        by_cases hin : v ∈ allowed <;>
          simp [hv, hl, hin, ih, vlanDriftSpec]

theorem detect_entries_shape (m : List (String × List Nat)) :
    ∀ ns, (detect_vlan_drift m ns).all
      (fun e => e.severity == "HIGH" && e.type == "vlan_drift"
        && incidentCategory e == "vlan_drift") = true := by
  intro ns
  induction ns with
  | nil => rfl
  | cons n ns ih =>
    cases hv : n.vlan_id with
    | none => simpa [detect_vlan_drift, hv] using ih
    | some v =>
      cases hl : m.lookup n.mac_address with
      | none => simpa [detect_vlan_drift, hv, hl] using ih
      | some allowed =>
        by_cases hin : v ∈ allowed
        · simpa [detect_vlan_drift, hv, hl, hin] using ih
        · have hstep : detect_vlan_drift m (n :: ns)
              = mkVlanDrift n.mac_address n.ip_address allowed v
                  n.switch_port :: detect_vlan_drift m ns := by
            simp [detect_vlan_drift, hv, hl, hin]
          rw [hstep, List.all_cons, ih, Bool.and_true]
          rfl

/-- C9: the detector emits exactly one entry per current node that has a
`vlan_id`, is in the authorized map, and sits in a VLAN outside its
authorized set — the entry carries the MAC, IP, authorized VLAN set,
observed VLAN and switch port; nodes without a `vlan_id` or with a MAC
outside the map contribute nothing, and every emitted entry is a
severity-HIGH `vlan_drift` incident. -/
theorem vlan_drift_detector_correct (m : List (String × List Nat))
    (ns : List NetworkNode) :
    detect_vlan_drift m ns = vlanDriftSpec m ns
    ∧ (detect_vlan_drift m ns).all
      (fun e => e.severity == "HIGH" && e.type == "vlan_drift"
        && incidentCategory e == "vlan_drift") = true :=
  ⟨detect_eq_spec m ns, detect_entries_shape m ns⟩

/-! ### Topology upsert lemmas -/

theorem findRow_upsert_flag (db : List NodeRow) (a : UpsertArgs) (now : Nat)
    (mac : String) :
    (findRow (upsert_node db a now) mac).map NodeRow.authorized
      = match findRow db mac with
        | some r => some (r.authorized
            || (if a.mac_address == mac then a.authorized else false))
        | none => if a.mac_address == mac then some a.authorized else none := by
  unfold upsert_node findRow
  by_cases hex : (db.any fun r => r.mac_address == a.mac_address) = true
  · rw [if_pos hex, List.find?_map]
    have hpf : ((fun r : NodeRow => r.mac_address == mac) ∘ fun r =>
        if r.mac_address == a.mac_address then applyUpsert r a now else r)
        = fun r : NodeRow => r.mac_address == mac := by
      funext r
      by_cases h : (r.mac_address == a.mac_address) = true <;>
        simp [h, applyUpsert, Function.comp]
    rw [hpf]
    cases hfind : db.find? (fun r => r.mac_address == mac) with
    | none =>
      cases ham : (a.mac_address == mac) with
      | false => simp
      | true =>
        exfalso
        obtain ⟨r, hr, hp⟩ := List.any_eq_true.mp hex
        have h1 : r.mac_address = a.mac_address := by simpa using hp
        have h2 : a.mac_address = mac := by simpa using ham
        have := List.find?_eq_none.mp hfind r hr
        simp [h1, h2] at this
    | some r =>
      have hr : (r.mac_address == mac) = true :=
        List.find?_some (p := fun r : NodeRow => r.mac_address == mac) hfind
      have hrm : r.mac_address = mac := by simpa using hr
      cases ham : (a.mac_address == mac) with
      | false =>
        have hne : r.mac_address ≠ a.mac_address := by
          intro hcon
          have : (a.mac_address == mac) = true := by simp [← hcon, hrm]
          rw [ham] at this
          exact Bool.false_ne_true this
        simp [hne]
      | true =>
        have ham' : a.mac_address = mac := by simpa using ham
        have heq : r.mac_address = a.mac_address := hrm.trans ham'.symm
        cases hauth : r.authorized <;>
          simp [heq, applyUpsert, hauth]
  · rw [if_neg hex, List.find?_append]
    cases hfind : db.find? (fun r => r.mac_address == mac) with
    | some r =>
      have hr : (r.mac_address == mac) = true :=
        List.find?_some (p := fun r : NodeRow => r.mac_address == mac) hfind
      have hmem : r ∈ db := List.mem_of_find?_eq_some hfind
      have hna : (a.mac_address == mac) = false := by
        cases ham : (a.mac_address == mac) with
        | false => rfl
        | true =>
          exfalso
          apply hex
          rw [List.any_eq_true]
          refine ⟨r, hmem, ?_⟩
          have h2 : a.mac_address = mac := by simpa using ham
          have h1 : r.mac_address = mac := by simpa using hr
          simp [h1, h2]
      simp [hna]
    | none =>
      cases ham : (a.mac_address == mac) <;> simp [ham]

/-- Rows used by the concrete topology theorems: one authorized node pinned
to VLAN 10, later observed by a scan on VLAN 20. -/
def vlanDbSample : List NodeRow :=
  [⟨"sw1", "AA:BB:CC:00:11:22", none, none, some 10, some "ether3", none,
    0, 0, true⟩]

/-- The correlated node a scan observes for the same MAC, on VLAN 20. -/
def scanNodeSample : NetworkNode :=
  ⟨"AA:BB:CC:00:11:22", some "10.0.0.9", none, some 20, some "ether3",
   some "unknown", none, none, false⟩

/-- C5 counterexample: a topology scan does change the authorized map.  The
map is derived from each authorized row's stored `vlan_id`, and the scan's
upsert overwrites that column with the newly observed VLAN: after scanning
the sample node on VLAN 20, `authorized(mac)` changes from `[10]` to
`[20]`. -/
theorem scan_changes_authorized_map :
    get_authorized_vlan_map
        (runScanUpserts "sw1" vlanDbSample [scanNodeSample] 1)
        "AA:BB:CC:00:11:22"
      ≠ get_authorized_vlan_map vlanDbSample "AA:BB:CC:00:11:22" := by
  decide

/-- C5 (amended): a scan never changes the authorized *flag* of any node —
after the scan's upserts, every existing row keeps its flag and newly
created rows are unauthorized; the authorized VLAN *map* may still change,
because it is derived from the scan-overwritten `vlan_id` column. -/
theorem scan_preserves_authorized_flag (d : String) (db : List NodeRow)
    (ns : List NetworkNode) (now : Nat) (mac : String) :
    (findRow (runScanUpserts d db ns now) mac).map NodeRow.authorized
      = Option.or ((findRow db mac).map NodeRow.authorized)
          (if ns.any (fun n => n.mac_address == mac) then some false
           else none) := by
  induction ns generalizing db with
  | nil =>
    cases hfind : findRow db mac <;> simp [runScanUpserts, hfind]
  | cons n ns ih =>
    rw [show runScanUpserts d db (n :: ns) now
        = runScanUpserts d (scanUpsert d db n now) ns now from rfl]
    rw [ih]
    rw [show (findRow (scanUpsert d db n now) mac).map NodeRow.authorized
        = _ from findRow_upsert_flag db _ now mac]
    cases hfind : findRow db mac <;>
      cases hnm : (n.mac_address == mac) <;>
      cases hany : (ns.any fun n => n.mac_address == mac) <;>
      simp [hfind, hnm, hany, Option.or]

/-- C8: the upsert applied to an existing row keeps `first_seen`, sets
`last_seen` to the new collection time, never lowers `authorized` from true
to false, and leaves `authorized` untouched whenever it is invoked with the
default `authorized=False` (as every scan invocation is); raising the flag
is done by `set_node_authorized`, which sets exactly the flag. -/
theorem upsert_preserves_row_invariants (db : List NodeRow) (a : UpsertArgs)
    (now : Nat) (r : NodeRow) (h : findRow db a.mac_address = some r) :
    findRow (upsert_node db a now) a.mac_address = some (applyUpsert r a now)
    ∧ (applyUpsert r a now).first_seen = r.first_seen
    ∧ (applyUpsert r a now).last_seen = now
    ∧ (r.authorized = true → (applyUpsert r a now).authorized = true)
    ∧ (a.authorized = false → (applyUpsert r a now).authorized = r.authorized)
    ∧ ∀ b, findRow (set_node_authorized db a.mac_address b) a.mac_address
        = some { r with authorized := b } := by
  have hp : (r.mac_address == a.mac_address) = true :=
    List.find?_some (p := fun x : NodeRow => x.mac_address == a.mac_address)
      (by simpa [findRow] using h)
  have hex : (db.any fun x => x.mac_address == a.mac_address) = true := by
    rw [List.any_eq_true]
    exact ⟨r, List.mem_of_find?_eq_some (by simpa [findRow] using h), hp⟩
  refine ⟨?_, rfl, rfl, ?_, ?_, ?_⟩
  · unfold upsert_node findRow
    rw [if_pos hex, List.find?_map]
    have hpf : ((fun x : NodeRow => x.mac_address == a.mac_address) ∘ fun x =>
        if x.mac_address == a.mac_address then applyUpsert x a now else x)
        = fun x : NodeRow => x.mac_address == a.mac_address := by
      funext x
      by_cases hx : (x.mac_address == a.mac_address) = true <;>
        simp [hx, applyUpsert, Function.comp]
    rw [hpf]
    rw [show db.find? (fun x => x.mac_address == a.mac_address) = some r
        from by simpa [findRow] using h]
    have hpe : r.mac_address = a.mac_address := by simpa using hp
    simp [hpe]
  · intro hauth; simp [applyUpsert, hauth]
  · intro hfa; cases hauth : r.authorized <;> simp [applyUpsert, hauth, hfa]
  · intro b
    unfold set_node_authorized findRow
    rw [List.find?_map]
    have hpf : ((fun x : NodeRow => x.mac_address == a.mac_address) ∘ fun x =>
        if x.mac_address == a.mac_address then { x with authorized := b }
        else x)
        = fun x : NodeRow => x.mac_address == a.mac_address := by
      funext x
      by_cases hx : (x.mac_address == a.mac_address) = true <;>
        simp [hx, Function.comp]
    rw [hpf]
    rw [show db.find? (fun x => x.mac_address == a.mac_address) = some r
        from by simpa [findRow] using h]
    have hpe : r.mac_address = a.mac_address := by simpa using hp
    simp [hpe]

/-- A sample row and upsert request instantiating the C8 theorem. -/
def sampleUpsert : UpsertArgs :=
  ⟨"sw1", "AA:BB:CC:00:11:22", some "10.0.0.9", none, some 20,
   some "ether3", some "unknown", false⟩

theorem upsert_preserves_row_invariants_witness :
    findRow vlanDbSample sampleUpsert.mac_address
        = some (⟨"sw1", "AA:BB:CC:00:11:22", none, none, some 10,
            some "ether3", none, 0, 0, true⟩ : NodeRow)
    ∧ (findRow (upsert_node vlanDbSample sampleUpsert 7)
          sampleUpsert.mac_address
        = some (applyUpsert ⟨"sw1", "AA:BB:CC:00:11:22", none, none, some 10,
            some "ether3", none, 0, 0, true⟩ sampleUpsert 7)
      ∧ (applyUpsert ⟨"sw1", "AA:BB:CC:00:11:22", none, none, some 10,
            some "ether3", none, 0, 0, true⟩ sampleUpsert 7).first_seen = 0
      ∧ (applyUpsert ⟨"sw1", "AA:BB:CC:00:11:22", none, none, some 10,
            some "ether3", none, 0, 0, true⟩ sampleUpsert 7).last_seen = 7
      ∧ ((⟨"sw1", "AA:BB:CC:00:11:22", none, none, some 10, some "ether3",
            none, 0, 0, true⟩ : NodeRow).authorized = true →
          (applyUpsert ⟨"sw1", "AA:BB:CC:00:11:22", none, none, some 10,
            some "ether3", none, 0, 0, true⟩ sampleUpsert 7).authorized = true)
      ∧ (sampleUpsert.authorized = false →
          (applyUpsert ⟨"sw1", "AA:BB:CC:00:11:22", none, none, some 10,
            some "ether3", none, 0, 0, true⟩ sampleUpsert 7).authorized
          = (⟨"sw1", "AA:BB:CC:00:11:22", none, none, some 10, some "ether3",
              none, 0, 0, true⟩ : NodeRow).authorized)
      ∧ ∀ b, findRow (set_node_authorized vlanDbSample
            sampleUpsert.mac_address b) sampleUpsert.mac_address
          = some { (⟨"sw1", "AA:BB:CC:00:11:22", none, none, some 10,
              some "ether3", none, 0, 0, true⟩ : NodeRow) with
              authorized := b }) :=
  ⟨by decide,
   upsert_preserves_row_invariants vlanDbSample sampleUpsert 7 _ (by decide)⟩

/-! ### Firewall comparator: equivalence with the per-index specification -/

theorem filterMap_range_shift {β : Type} (f : Nat → Option β) (n : Nat) :
    (List.range (n + 1)).filterMap f
      = (f 0).toList ++ (List.range n).filterMap (fun j => f (j + 1)) := by
  rw [List.range_succ_eq_map, List.filterMap_cons, List.filterMap_map]
  cases h : f 0 <;> simp [h] <;> rfl

theorem compareFw_nil_right (i : Nat) : ∀ B,
    DiffEngine.compareFw i B []
      = { FwAudit.empty with missing_rules := DiffEngine.fwExtras i B } := by
  intro B
  induction B generalizing i with
  | nil => rfl
  | cons b bs ih =>
    show (let rest := DiffEngine.compareFw (i + 1) bs [];
      { rest with missing_rules := (i, b.dump) :: rest.missing_rules }) = _
    rw [ih]
    rfl

theorem fwExtras_spec (i : Nat) : ∀ C,
    DiffEngine.fwExtras i C
      = (List.range C.length).filterMap
          (fun j => (C[j]?).map (fun c : FirewallRule => (i + j, c.dump))) := by
  intro C
  induction C generalizing i with
  | nil => rfl
  | cons c cs ih =>
    show (i, c.dump) :: DiffEngine.fwExtras (i + 1) cs = _
    rw [List.length_cons, filterMap_range_shift]
    simp only [List.getElem?_cons_zero, Option.map_some', Option.toList_some,
      List.getElem?_cons_succ, Nat.add_zero, List.singleton_append,
      List.cons.injEq, true_and]
    rw [ih (i + 1)]
    congr 1
    funext j
    rw [show i + 1 + j = i + (j + 1) from by omega]
theorem compareFw_nil_left (i : Nat) (C : List FirewallRule) :
    DiffEngine.compareFw i [] C
      = { FwAudit.empty with extra_rules := DiffEngine.fwExtras i C } := rfl

theorem compareFw_cons (i : Nat) (b c : FirewallRule)
    (bs cs : List FirewallRule) :
    DiffEngine.compareFw i (b :: bs) (c :: cs)
      = (if b = c then DiffEngine.compareFw (i + 1) bs cs
        else if b.comment = c.comment then
          { DiffEngine.compareFw (i + 1) bs cs with
            parameter_drift := ⟨i, b.comment, ruleChanges b c⟩
              :: (DiffEngine.compareFw (i + 1) bs cs).parameter_drift }
        else
          { DiffEngine.compareFw (i + 1) bs cs with
            position_drift := ⟨i, b.comment, c.comment, b.dump, c.dump⟩
              :: (DiffEngine.compareFw (i + 1) bs cs).position_drift }) := rfl

theorem compareFw_missing_spec : ∀ (B C : List FirewallRule) (i : Nat),
    (DiffEngine.compareFw i B C).missing_rules
      = (List.range (max B.length C.length)).filterMap (fun j =>
          if C.length ≤ j then (B[j]?).map (fun b => (i + j, b.dump))
          else none) := by
  intro B
  induction B with
  | nil =>
    intro C i
    have h0 : (DiffEngine.compareFw i [] C).missing_rules = [] := by
      rw [compareFw_nil_left]
      rfl
    rw [h0]
    symm
    rw [List.filterMap_eq_nil_iff]
    intro j hj
    have hj' : j < C.length := by simpa using List.mem_range.mp hj
    rw [if_neg (by omega)]
  | cons b bs ih =>
    intro C i
    cases C with
    | nil =>
      have h0 : (DiffEngine.compareFw i (b :: bs) []).missing_rules
          = DiffEngine.fwExtras i (b :: bs) := by
        rw [compareFw_nil_right]
      rw [h0, fwExtras_spec]
      rw [show max (b :: bs).length ([] : List FirewallRule).length
        = (b :: bs).length from by simp]
      congr 1
      funext j
      rw [if_pos (by simp)]
    | cons c cs =>
      have hm : (DiffEngine.compareFw i (b :: bs) (c :: cs)).missing_rules
          = (DiffEngine.compareFw (i + 1) bs cs).missing_rules := by
        rw [compareFw_cons]; split_ifs <;> rfl
      rw [hm, ih cs (i + 1)]
      symm
      rw [show max (b :: bs).length (c :: cs).length
        = max bs.length cs.length + 1 from by
          simp [List.length_cons, Nat.succ_max_succ]]
      rw [filterMap_range_shift]
      rw [if_neg (by simp)]
      simp only [Option.toList_none, List.nil_append]
      congr 1
      funext j
      rw [show i + (j + 1) = i + 1 + j from by omega]
      simp only [List.length_cons, List.getElem?_cons_succ,
        Nat.add_le_add_iff_right]

theorem filterMap_range_succ_none {β : Type} (f : Nat → Option β) (n : Nat)
    (h : f 0 = none) :
    (List.range (n + 1)).filterMap f
      = (List.range n).filterMap (fun j => f (j + 1)) := by
  rw [filterMap_range_shift, h]
  rfl

theorem filterMap_range_succ_some {β : Type} (f : Nat → Option β) (n : Nat)
    (b : β) (h : f 0 = some b) :
    (List.range (n + 1)).filterMap f
      = b :: (List.range n).filterMap (fun j => f (j + 1)) := by
  rw [filterMap_range_shift, h]
  rfl

theorem filterMap_congr_mem {α β : Type} {f g : α → Option β} :
    ∀ {l : List α}, (∀ a ∈ l, f a = g a) → l.filterMap f = l.filterMap g := by
  intro l
  induction l with
  | nil => intro _; rfl
  | cons a t ih =>
    intro h
    rw [List.filterMap_cons, List.filterMap_cons,
      h a (List.mem_cons_self a t), ih (fun x hx => h x (List.mem_cons_of_mem _ hx))]

theorem compareFw_extra_spec : ∀ (B C : List FirewallRule) (i : Nat),
    (DiffEngine.compareFw i B C).extra_rules
      = (List.range (max B.length C.length)).filterMap (fun j =>
          if C.length ≤ j then none
          else if B.length ≤ j then (C[j]?).map (fun c => (i + j, c.dump))
          else none) := by
  intro B
  induction B with
  | nil =>
    intro C i
    have h0 : (DiffEngine.compareFw i [] C).extra_rules
        = DiffEngine.fwExtras i C := by
      rw [compareFw_nil_left]
    rw [h0, fwExtras_spec]
    rw [show max ([] : List FirewallRule).length C.length = C.length from by simp]
    apply filterMap_congr_mem
    intro j hj
    have hj' : j < C.length := List.mem_range.mp hj
    rw [if_neg (by omega), if_pos (by simp)]
  | cons b bs ih =>
    intro C i
    cases C with
    | nil =>
      have h0 : (DiffEngine.compareFw i (b :: bs) []).extra_rules = [] := by
        rw [compareFw_nil_right]
        rfl
      rw [h0]
      symm
      rw [List.filterMap_eq_nil_iff]
      intro j _
      rw [if_pos (by simp)]
    | cons c cs =>
      have hm : (DiffEngine.compareFw i (b :: bs) (c :: cs)).extra_rules
          = (DiffEngine.compareFw (i + 1) bs cs).extra_rules := by
        rw [compareFw_cons]; split_ifs <;> rfl
      rw [hm, ih cs (i + 1)]
      symm
      rw [show max (b :: bs).length (c :: cs).length
        = max bs.length cs.length + 1 from by
          simp [List.length_cons, Nat.succ_max_succ]]
      rw [filterMap_range_succ_none]
      · congr 1
        funext j
        rw [show i + (j + 1) = i + 1 + j from by omega]
        simp only [List.length_cons, List.getElem?_cons_succ,
          Nat.add_le_add_iff_right]
      · simp

theorem compareFw_param_spec : ∀ (B C : List FirewallRule) (i : Nat),
    (DiffEngine.compareFw i B C).parameter_drift
      = (List.range (max B.length C.length)).filterMap (fun j =>
          match B[j]?, C[j]? with
          | some b, some c =>
            if b = c then none
            else if b.comment = c.comment then
              some ⟨i + j, b.comment, ruleChanges b c⟩
            else none
          | _, _ => none) := by
  intro B
  induction B with
  | nil =>
    intro C i
    have h0 : (DiffEngine.compareFw i [] C).parameter_drift = [] := by
      rw [compareFw_nil_left]
      rfl
    rw [h0]
    symm
    rw [List.filterMap_eq_nil_iff]
    intro j _
    simp
  | cons b bs ih =>
    intro C i
    cases C with
    | nil =>
      have h0 : (DiffEngine.compareFw i (b :: bs) []).parameter_drift = [] := by
        rw [compareFw_nil_right]
        rfl
      rw [h0]
      symm
      rw [List.filterMap_eq_nil_iff]
      intro j _
      simp
    | cons c cs =>
      by_cases hbc : b = c
      · have hm : (DiffEngine.compareFw i (b :: bs) (c :: cs)).parameter_drift
            = (DiffEngine.compareFw (i + 1) bs cs).parameter_drift := by
          rw [compareFw_cons, if_pos hbc]
        rw [hm, ih cs (i + 1)]
        symm
        rw [show max (b :: bs).length (c :: cs).length
          = max bs.length cs.length + 1 from by
            simp [List.length_cons, Nat.succ_max_succ]]
        rw [filterMap_range_succ_none]
        · congr 1
          funext j
          rw [show i + (j + 1) = i + 1 + j from by omega]
          simp only [List.getElem?_cons_succ]
        · simp [hbc]
      · by_cases hcm : b.comment = c.comment
        · have hm : (DiffEngine.compareFw i (b :: bs) (c :: cs)).parameter_drift
              = ⟨i, b.comment, ruleChanges b c⟩
                :: (DiffEngine.compareFw (i + 1) bs cs).parameter_drift := by
            rw [compareFw_cons, if_neg hbc, if_pos hcm]
          rw [hm, ih cs (i + 1)]
          symm
          rw [show max (b :: bs).length (c :: cs).length
            = max bs.length cs.length + 1 from by
              simp [List.length_cons, Nat.succ_max_succ]]
          rw [filterMap_range_succ_some _ _ ⟨i, b.comment, ruleChanges b c⟩
            (by simp [hbc, hcm])]
          congr 1
          congr 1
          funext j
          rw [show i + (j + 1) = i + 1 + j from by omega]
          simp only [List.getElem?_cons_succ]
        · have hm : (DiffEngine.compareFw i (b :: bs) (c :: cs)).parameter_drift
              = (DiffEngine.compareFw (i + 1) bs cs).parameter_drift := by
            rw [compareFw_cons, if_neg hbc, if_neg hcm]
          rw [hm, ih cs (i + 1)]
          symm
          rw [show max (b :: bs).length (c :: cs).length
            = max bs.length cs.length + 1 from by
              simp [List.length_cons, Nat.succ_max_succ]]
          rw [filterMap_range_succ_none]
          · congr 1
            funext j
            rw [show i + (j + 1) = i + 1 + j from by omega]
            simp only [List.getElem?_cons_succ]
          · simp [hbc, hcm]

theorem compareFw_pos_spec : ∀ (B C : List FirewallRule) (i : Nat),
    (DiffEngine.compareFw i B C).position_drift
      = (List.range (max B.length C.length)).filterMap (fun j =>
          match B[j]?, C[j]? with
          | some b, some c =>
            if b = c then none
            else if b.comment = c.comment then none
            else some ⟨i + j, b.comment, c.comment, b.dump, c.dump⟩
          | _, _ => none) := by
  intro B
  induction B with
  | nil =>
    intro C i
    have h0 : (DiffEngine.compareFw i [] C).position_drift = [] := by
      rw [compareFw_nil_left]
      rfl
    rw [h0]
    symm
    rw [List.filterMap_eq_nil_iff]
    intro j _
    simp
  | cons b bs ih =>
    intro C i
    cases C with
    | nil =>
      have h0 : (DiffEngine.compareFw i (b :: bs) []).position_drift = [] := by
        rw [compareFw_nil_right]
        rfl
      rw [h0]
      symm
      rw [List.filterMap_eq_nil_iff]
      intro j _
      simp
    | cons c cs =>
      by_cases hbc : b = c
      · have hm : (DiffEngine.compareFw i (b :: bs) (c :: cs)).position_drift
            = (DiffEngine.compareFw (i + 1) bs cs).position_drift := by
          rw [compareFw_cons, if_pos hbc]
        rw [hm, ih cs (i + 1)]
        symm
        rw [show max (b :: bs).length (c :: cs).length
          = max bs.length cs.length + 1 from by
            simp [List.length_cons, Nat.succ_max_succ]]
        rw [filterMap_range_succ_none]
        · congr 1
          funext j
          rw [show i + (j + 1) = i + 1 + j from by omega]
          simp only [List.getElem?_cons_succ]
        · simp [hbc]
      · by_cases hcm : b.comment = c.comment
        · have hm : (DiffEngine.compareFw i (b :: bs) (c :: cs)).position_drift
              = (DiffEngine.compareFw (i + 1) bs cs).position_drift := by
            rw [compareFw_cons, if_neg hbc, if_pos hcm]
          rw [hm, ih cs (i + 1)]
          symm
          rw [show max (b :: bs).length (c :: cs).length
            = max bs.length cs.length + 1 from by
              simp [List.length_cons, Nat.succ_max_succ]]
          rw [filterMap_range_succ_none]
          · congr 1
            funext j
            rw [show i + (j + 1) = i + 1 + j from by omega]
            simp only [List.getElem?_cons_succ]
          · simp [hbc, hcm]
        · have hm : (DiffEngine.compareFw i (b :: bs) (c :: cs)).position_drift
              = ⟨i, b.comment, c.comment, b.dump, c.dump⟩
                :: (DiffEngine.compareFw (i + 1) bs cs).position_drift := by
            rw [compareFw_cons, if_neg hbc, if_neg hcm]
          rw [hm, ih cs (i + 1)]
          symm
          rw [show max (b :: bs).length (c :: cs).length
            = max bs.length cs.length + 1 from by
              simp [List.length_cons, Nat.succ_max_succ]]
          rw [filterMap_range_succ_some _ _
            ⟨i, b.comment, c.comment, b.dump, c.dump⟩ (by simp [hbc, hcm])]
          congr 1
          congr 1
          funext j
          rw [show i + (j + 1) = i + 1 + j from by omega]
          simp only [List.getElem?_cons_succ]

theorem fwaudit_eq_of_parts {x y : FwAudit}
    (h1 : x.position_drift = y.position_drift)
    (h2 : x.parameter_drift = y.parameter_drift)
    (h3 : x.missing_rules = y.missing_rules)
    (h4 : x.extra_rules = y.extra_rules) : x = y := by
  cases x; cases y; simp_all

theorem compareFw_eq_fwAuditSpec (B C : List FirewallRule) :
    DiffEngine.compareFw 0 B C = fwAuditSpec B C := by
  apply fwaudit_eq_of_parts
  · rw [compareFw_pos_spec]
    rw [show (fwAuditSpec B C).position_drift
      = (List.range (max B.length C.length)).filterMap (fun j =>
          match B[j]?, C[j]? with
          | some b, some c =>
            if b = c then none
            else if b.comment = c.comment then none
            else some ⟨j, b.comment, c.comment, b.dump, c.dump⟩
          | _, _ => none) from rfl]
    congr 1
    funext j
    simp
  · rw [compareFw_param_spec]
    rw [show (fwAuditSpec B C).parameter_drift
      = (List.range (max B.length C.length)).filterMap (fun j =>
          match B[j]?, C[j]? with
          | some b, some c =>
            if b = c then none
            else if b.comment = c.comment then
              some ⟨j, b.comment, ruleChanges b c⟩
            else none
          | _, _ => none) from rfl]
    congr 1
    funext j
    simp
  · rw [compareFw_missing_spec]
    rw [show (fwAuditSpec B C).missing_rules
      = (List.range (max B.length C.length)).filterMap (fun j =>
          if C.length ≤ j then (B[j]?).map (fun b => (j, b.dump))
          else none) from rfl]
    congr 1
    funext j
    simp
  · rw [compareFw_extra_spec]
    rw [show (fwAuditSpec B C).extra_rules
      = (List.range (max B.length C.length)).filterMap (fun j =>
          if C.length ≤ j then none
          else if B.length ≤ j then (C[j]?).map (fun c => (j, c.dump))
          else none) from rfl]
    congr 1
    funext j
    simp

theorem fwAuditSpec_missing_bound (B C : List FirewallRule) (i : Nat)
    (h : (fwAuditSpec B C).missing_rules.any (fun e => e.1 == i) = true) :
    C.length ≤ i ∧ i < B.length := by
  obtain ⟨e, he, hei⟩ := List.any_eq_true.mp h
  obtain ⟨j, _, hfj⟩ := List.mem_filterMap.mp he
  by_cases hc : C.length ≤ j
  · rw [if_pos hc] at hfj
    obtain ⟨b, hb, hbe⟩ := Option.map_eq_some'.mp hfj
    have hj' : j < B.length := (List.getElem?_eq_some.mp hb).1
    have hji : j = i := by
      have h1 : e.1 = j := by rw [← hbe]
      have h2 : e.1 = i := by simpa using hei
      omega
    omega
  · rw [if_neg hc] at hfj
    simp at hfj

theorem fwAuditSpec_extra_bound (B C : List FirewallRule) (i : Nat)
    (h : (fwAuditSpec B C).extra_rules.any (fun e => e.1 == i) = true) :
    i < C.length ∧ B.length ≤ i := by
  obtain ⟨e, he, hei⟩ := List.any_eq_true.mp h
  obtain ⟨j, _, hfj⟩ := List.mem_filterMap.mp he
  by_cases hc : C.length ≤ j
  · rw [if_pos hc] at hfj
    simp at hfj
  · rw [if_neg hc] at hfj
    by_cases hb : B.length ≤ j
    · rw [if_pos hb] at hfj
      obtain ⟨c, hcv, hce⟩ := Option.map_eq_some'.mp hfj
      have hji : j = i := by
        have h1 : e.1 = j := by rw [← hce]
        have h2 : e.1 = i := by simpa using hei
        omega
      omega
    · rw [if_neg hb] at hfj
      simp at hfj

theorem fwAuditSpec_param_shape (B C : List FirewallRule) (i : Nat)
    (h : (fwAuditSpec B C).parameter_drift.any
      (fun e => e.index == i) = true) :
    ∃ b c, B[i]? = some b ∧ C[i]? = some c ∧ b ≠ c
      ∧ b.comment = c.comment := by
  obtain ⟨e, he, hei⟩ := List.any_eq_true.mp h
  obtain ⟨j, _, hfj⟩ := List.mem_filterMap.mp he
  cases hb : B[j]? with
  | none => rw [hb] at hfj; simp at hfj
  | some b =>
    cases hc : C[j]? with
    | none => rw [hb, hc] at hfj; simp at hfj
    | some c =>
      rw [hb, hc] at hfj
      have hfj' : (if b = c then none
          else if b.comment = c.comment then
            some (⟨j, b.comment, ruleChanges b c⟩ : ParamDrift)
          else none) = some e := hfj
      by_cases hbc : b = c
      · simp [hbc] at hfj'
      · by_cases hcm : b.comment = c.comment
        · rw [if_neg hbc, if_pos hcm] at hfj'
          simp only [Option.some.injEq] at hfj'
          have hji : j = i := by
            have h1 : e.index = j := by rw [← hfj']
            have h2 : e.index = i := by simpa using hei
            omega
          subst hji
          exact ⟨b, c, hb, hc, hbc, hcm⟩
        · rw [if_neg hbc, if_neg hcm] at hfj'
          simp at hfj' 

theorem fwAuditSpec_pos_shape (B C : List FirewallRule) (i : Nat)
    (h : (fwAuditSpec B C).position_drift.any
      (fun e => e.index == i) = true) :
    ∃ b c, B[i]? = some b ∧ C[i]? = some c ∧ b ≠ c
      ∧ b.comment ≠ c.comment := by
  obtain ⟨e, he, hei⟩ := List.any_eq_true.mp h
  obtain ⟨j, _, hfj⟩ := List.mem_filterMap.mp he
  cases hb : B[j]? with
  | none => rw [hb] at hfj; simp at hfj
  | some b =>
    cases hc : C[j]? with
    | none => rw [hb, hc] at hfj; simp at hfj
    | some c =>
      rw [hb, hc] at hfj
      have hfj' : (if b = c then none
          else if b.comment = c.comment then none
          else some (⟨j, b.comment, c.comment, b.dump, c.dump⟩ : PosDrift))
          = some e := hfj
      by_cases hbc : b = c
      · simp [hbc] at hfj'
      · by_cases hcm : b.comment = c.comment
        · rw [if_neg hbc, if_pos hcm] at hfj'
          simp at hfj'
        · rw [if_neg hbc, if_neg hcm] at hfj'
          simp only [Option.some.injEq] at hfj'
          have hji : j = i := by
            have h1 : e.index = j := by rw [← hfj']
            have h2 : e.index = i := by simpa using hei
            omega
          subst hji
          exact ⟨b, c, hb, hc, hbc, hcm⟩

theorem fwAuditSpec_bucketHits_le_one (B C : List FirewallRule) (i : Nat) :
    (fwAuditSpec B C).bucketHits i ≤ 1 := by
  have kPP : ((fwAuditSpec B C).position_drift.any
        (fun e => e.index == i)) = true →
      ((fwAuditSpec B C).parameter_drift.any
        (fun e => e.index == i)) = true → False := by
    intro h1 h2
    obtain ⟨b, c, hb, hc, _, hne⟩ := fwAuditSpec_pos_shape B C i h1
    obtain ⟨b', c', hb', hc', _, heq⟩ := fwAuditSpec_param_shape B C i h2
    rw [hb] at hb'
    rw [hc] at hc'
    cases hb'
    cases hc'
    exact hne heq
  have kPM : ((fwAuditSpec B C).position_drift.any
        (fun e => e.index == i)) = true →
      ((fwAuditSpec B C).missing_rules.any (fun e => e.1 == i)) = true →
      False := by
    intro h1 h3
    obtain ⟨b, c, hb, hc, _, _⟩ := fwAuditSpec_pos_shape B C i h1
    have hlt : i < C.length := (List.getElem?_eq_some.mp hc).1
    have := fwAuditSpec_missing_bound B C i h3
    omega
  have kPE : ((fwAuditSpec B C).position_drift.any
        (fun e => e.index == i)) = true →
      ((fwAuditSpec B C).extra_rules.any (fun e => e.1 == i)) = true →
      False := by
    intro h1 h4
    obtain ⟨b, c, hb, hc, _, _⟩ := fwAuditSpec_pos_shape B C i h1
    have hlt : i < B.length := (List.getElem?_eq_some.mp hb).1
    have := fwAuditSpec_extra_bound B C i h4
    omega
  have kQM : ((fwAuditSpec B C).parameter_drift.any
        (fun e => e.index == i)) = true →
      ((fwAuditSpec B C).missing_rules.any (fun e => e.1 == i)) = true →
      False := by
    intro h2 h3
    obtain ⟨b, c, hb, hc, _, _⟩ := fwAuditSpec_param_shape B C i h2
    have hlt : i < C.length := (List.getElem?_eq_some.mp hc).1
    have := fwAuditSpec_missing_bound B C i h3
    omega
  have kQE : ((fwAuditSpec B C).parameter_drift.any
        (fun e => e.index == i)) = true →
      ((fwAuditSpec B C).extra_rules.any (fun e => e.1 == i)) = true →
      False := by
    intro h2 h4
    obtain ⟨b, c, hb, hc, _, _⟩ := fwAuditSpec_param_shape B C i h2
    have hlt : i < B.length := (List.getElem?_eq_some.mp hb).1
    have := fwAuditSpec_extra_bound B C i h4
    omega
  have kME : ((fwAuditSpec B C).missing_rules.any
        (fun e => e.1 == i)) = true →
      ((fwAuditSpec B C).extra_rules.any (fun e => e.1 == i)) = true →
      False := by
    intro h3 h4
    have := fwAuditSpec_missing_bound B C i h3
    have := fwAuditSpec_extra_bound B C i h4
    omega
  unfold FwAudit.bucketHits
  cases h1 : ((fwAuditSpec B C).position_drift.any
      (fun e => e.index == i)) <;>
    cases h2 : ((fwAuditSpec B C).parameter_drift.any
      (fun e => e.index == i)) <;>
    cases h3 : ((fwAuditSpec B C).missing_rules.any
      (fun e => e.1 == i)) <;>
    cases h4 : ((fwAuditSpec B C).extra_rules.any
      (fun e => e.1 == i)) <;>
    simp only [if_true, if_false, Bool.false_eq_true] <;>
    first
      | omega
      | exact absurd (kPP h1 h2) not_false
      | exact absurd (kPM h1 h3) not_false
      | exact absurd (kPE h1 h4) not_false
      | exact absurd (kQM h2 h3) not_false
      | exact absurd (kQE h2 h4) not_false
      | exact absurd (kME h3 h4) not_false

/-- C1: the firewall comparator realizes exactly the per-index algorithm of
the specification — for every index of `range(max(len B, len C))` it files a
missing rule when `i ≥ len C`, an extra rule when `i ≥ len B`, nothing when
the rules coincide, a parameter-drift entry when only the comments agree and
a position-drift entry otherwise — and every index lands in at most one
bucket. -/
theorem firewall_comparator_spec (B C : List FirewallRule) :
    DiffEngine.compareFw 0 B C = fwAuditSpec B C
    ∧ ∀ i, (DiffEngine.compareFw 0 B C).bucketHits i ≤ 1 := by
  refine ⟨compareFw_eq_fwAuditSpec B C, fun i => ?_⟩
  rw [compareFw_eq_fwAuditSpec]
  exact fwAuditSpec_bucketHits_le_one B C i

/-! ### Severity classifier lemmas -/

theorem bag_or (l : List (String × BagVal)) :
    (anyScalarEntry l || anyListEntry l) = !l.isEmpty := by
  cases l with
  | nil => rfl
  | cons kv t =>
    simp only [anyScalarEntry, anyListEntry, List.any_cons, List.isEmpty_cons,
      Bool.not_false]
    cases hkv : kv.2.isList <;> simp

theorem anyScalar_of_isEmpty {l : List (String × BagVal)}
    (h : l.isEmpty = true) : anyScalarEntry l = false := by
  rw [List.isEmpty_iff.mp h]; rfl

theorem low_level_eq (ad rm md : List (String × BagVal)) :
    (if anyScalarEntry md || !ad.isEmpty || !rm.isEmpty then
      (if anyScalarEntry md
          || (if !ad.isEmpty then anyScalarEntry ad else false)
          || (if !rm.isEmpty then anyScalarEntry rm else false)
        then max Severity.COMPLIANT Severity.LOW else Severity.COMPLIANT)
      else Severity.COMPLIANT)
    = if anyScalarEntry ad || anyScalarEntry rm || anyScalarEntry md then
        max Severity.COMPLIANT Severity.LOW
      else Severity.COMPLIANT := by
  cases hea : ad.isEmpty <;> cases her : rm.isEmpty <;>
    cases hsm : anyScalarEntry md <;> cases hsa : anyScalarEntry ad <;>
    cases hsr : anyScalarEntry rm <;>
    simp_all [anyScalar_of_isEmpty]

theorem chain_eq_fold (sA sR sM lA lR lM p hm hx q : Bool) :
    (let l1 := if sA || sR || sM then max Severity.COMPLIANT Severity.LOW
      else Severity.COMPLIANT
     let l2 := if lM || lA || lR then max l1 Severity.MEDIUM else l1
     let l3 := if p then max l2 Severity.MEDIUM else l2
     let l4 := if hm || hx then max l3 Severity.HIGH else l3
     if q then max l4 Severity.CRITICAL else l4)
    = List.foldr max Severity.COMPLIANT
        ((if sA || sR || sM then [Severity.LOW] else [])
        ++ (if lA || lR || lM then [Severity.MEDIUM] else [])
        ++ (if p then [Severity.MEDIUM] else [])
        ++ (if hm || hx then [Severity.HIGH] else [])
        ++ (if q then [Severity.CRITICAL] else [])) := by
  revert sA sR sM lA lR lM p hm hx q
  decide

theorem fold_low_iff (sA sR sM lA lR lM p hm hx q : Bool) :
    (Severity.LOW ≤ List.foldr max Severity.COMPLIANT
        ((if sA || sR || sM then [Severity.LOW] else [])
        ++ (if lA || lR || lM then [Severity.MEDIUM] else [])
        ++ (if p then [Severity.MEDIUM] else [])
        ++ (if hm || hx then [Severity.HIGH] else [])
        ++ (if q then [Severity.CRITICAL] else [])))
    ↔ ((sA || lA) || (sR || lR) || (sM || lM)
        || (q || p || hm || hx)) = true := by
  revert sA sR sM lA lR lM p hm hx q
  decide

/-- C2: the severity classifier returns the maximum over every rule of the
specification table that fires — compliant on no drift, at least LOW for a
scalar difference, at least MEDIUM for a list difference or firewall
parameter drift, at least HIGH for missing/extra firewall rules, CRITICAL
for firewall position drift — and it reports at least LOW exactly when the
report has any drift at all. -/
theorem severity_classifier_correct (r : DiffReport) :
    classify_severity r = severitySpec r
    ∧ (Severity.LOW ≤ classify_severity r ↔ r.hasDrift = true) := by
  obtain ⟨ad, rm, md, ⟨pos, par, ms, ex⟩⟩ := r
  cases hdr : DiffReport.hasDrift ⟨ad, rm, md, ⟨pos, par, ms, ex⟩⟩ with
  | false =>
    have h := hdr
    simp only [DiffReport.hasDrift, DiffReport.hasFirewallDrift,
      Bool.or_eq_false_iff, Bool.not_eq_false', List.isEmpty_iff,
      Bool.not_eq_true'] at h
    obtain ⟨⟨⟨h1, h2⟩, h3⟩, ⟨⟨⟨h4, h5⟩, h6⟩, h7⟩⟩ := h
    subst h1 h2 h3 h4 h5 h6 h7
    exact ⟨by decide, by decide⟩
  | true =>
    have hmain : classify_severity ⟨ad, rm, md, ⟨pos, par, ms, ex⟩⟩
        = severitySpec ⟨ad, rm, md, ⟨pos, par, ms, ex⟩⟩ := by
      unfold classify_severity severitySpec
      rw [if_neg (by simp [hdr])]
      dsimp only
      rw [low_level_eq]
      exact chain_eq_fold (anyScalarEntry ad) (anyScalarEntry rm)
        (anyScalarEntry md) (anyListEntry ad) (anyListEntry rm)
        (anyListEntry md) (!par.isEmpty) (!ms.isEmpty) (!ex.isEmpty)
        (!pos.isEmpty)
    refine ⟨hmain, ?_⟩
    rw [hmain]
    constructor
    · intro _
      rfl
    · intro _
      have hdr' := hdr
      simp only [DiffReport.hasDrift, DiffReport.hasFirewallDrift] at hdr'
      rw [← bag_or ad, ← bag_or rm, ← bag_or md] at hdr'
      exact (fold_low_iff (anyScalarEntry ad) (anyScalarEntry rm)
        (anyScalarEntry md) (anyListEntry ad) (anyListEntry rm)
        (anyListEntry md) (!par.isEmpty) (!ms.isEmpty) (!ex.isEmpty)
        (!pos.isEmpty)).mpr hdr'

/-! ### Symmetry of the comparison under argument swap -/

theorem diff_fw_eq (x y : DeviceConfig) :
    (diff x y).firewall_audit
      = DiffEngine.compareFw 0 x.firewall_rules y.firewall_rules := by
  have hcf : FIREWALL_FIELD ∉ DEFAULT_EXCLUDE := by decide
  unfold diff DiffEngine.compare
  simp [hcf]

theorem diff_added_eq (x y : DeviceConfig) :
    (diff x y).added
      = DiffEngine.bagEntry "interfaces" BagVal.itemEntries
          (DiffEngine.ordAdded Interface.dump 0 x.interfaces y.interfaces)
        ++ DiffEngine.bagEntry "routes" BagVal.itemEntries
          (DiffEngine.ordAdded Route.dump 0 x.routes y.routes) := by
  have hkeys : ∀ k ∈ (["hostname", "model", "os_version", "vendor"] :
      List String), deviceDumpKeys.contains k = true := by decide
  have hs := scalarWalk_all_present x y _ hkeys
  have hcsf : DiffEngine.compareScalarFields x y DEFAULT_EXCLUDE
      = DiffEngine.scalarWalk x y
          ["hostname", "model", "os_version", "vendor"] := by
    unfold DiffEngine.compareScalarFields
    rw [scalarKeys_default]
  have hci : "interfaces" ∉ DEFAULT_EXCLUDE := by decide
  have hcr : "routes" ∉ DEFAULT_EXCLUDE := by decide
  unfold diff DiffEngine.compare
  simp [hci, hcr, hcsf, hs.1]

theorem diff_removed_eq (x y : DeviceConfig) :
    (diff x y).removed
      = DiffEngine.bagEntry "interfaces" BagVal.itemEntries
          (DiffEngine.ordRemoved Interface.dump 0 x.interfaces y.interfaces)
        ++ DiffEngine.bagEntry "routes" BagVal.itemEntries
          (DiffEngine.ordRemoved Route.dump 0 x.routes y.routes) := by
  have hkeys : ∀ k ∈ (["hostname", "model", "os_version", "vendor"] :
      List String), deviceDumpKeys.contains k = true := by decide
  have hs := scalarWalk_all_present x y _ hkeys
  have hcsf : DiffEngine.compareScalarFields x y DEFAULT_EXCLUDE
      = DiffEngine.scalarWalk x y
          ["hostname", "model", "os_version", "vendor"] := by
    unfold DiffEngine.compareScalarFields
    rw [scalarKeys_default]
  have hci : "interfaces" ∉ DEFAULT_EXCLUDE := by decide
  have hcr : "routes" ∉ DEFAULT_EXCLUDE := by decide
  unfold diff DiffEngine.compare
  simp [hci, hcr, hcsf, hs.2.1]

theorem diff_modified_eq (x y : DeviceConfig) :
    (diff x y).modified
      = (DiffEngine.scalarWalk x y
          ["hostname", "model", "os_version", "vendor"]).2.2
        ++ DiffEngine.bagEntry "interfaces" BagVal.modEntries
          (DiffEngine.ordMods interfaceChanges 0 x.interfaces y.interfaces)
        ++ DiffEngine.bagEntry "routes" BagVal.modEntries
          (DiffEngine.ordMods routeChanges 0 x.routes y.routes) := by
  have hcsf : DiffEngine.compareScalarFields x y DEFAULT_EXCLUDE
      = DiffEngine.scalarWalk x y
          ["hostname", "model", "os_version", "vendor"] := by
    unfold DiffEngine.compareScalarFields
    rw [scalarKeys_default]
  have hci : "interfaces" ∉ DEFAULT_EXCLUDE := by decide
  have hcr : "routes" ∉ DEFAULT_EXCLUDE := by decide
  unfold diff DiffEngine.compare
  simp [hci, hcr, hcsf]

theorem ordAdded_swap {α : Type} (dump : α → List (String × PyVal)) :
    ∀ (i : Nat) (bl cl : List α),
      DiffEngine.ordAdded dump i bl cl = DiffEngine.ordRemoved dump i cl bl := by
  intro i bl
  induction bl generalizing i with
  | nil => intro cl; cases cl <;> rfl
  | cons b bs ih =>
    intro cl
    cases cl with
    | nil => rfl
    | cons c cs => exact ih (i + 1) cs

theorem ordMods_keys_swap {α : Type}
    (ch : α → α → List (String × PyVal × PyVal))
    (hsym : ∀ a b, ch a b = [] ↔ ch b a = []) :
    ∀ (i : Nat) (bl cl : List α),
      (DiffEngine.ordMods ch i bl cl).map Prod.fst
        = (DiffEngine.ordMods ch i cl bl).map Prod.fst := by
  intro i bl
  induction bl generalizing i with
  | nil => intro cl; cases cl <;> rfl
  | cons b bs ih =>
    intro cl
    cases cl with
    | nil => rfl
    | cons c cs =>
      by_cases h : ch b c = []
      · have h' : ch c b = [] := (hsym b c).mp h
        simp only [DiffEngine.ordMods, h, h', if_pos rfl]
        exact ih (i + 1) cs
      · have h' : ch c b ≠ [] := fun hc => h ((hsym b c).mpr hc)
        simp only [DiffEngine.ordMods, if_neg h, if_neg h', List.map_cons]
        rw [ih (i + 1) cs]

theorem compareFw_swap : ∀ (B C : List FirewallRule) (i : Nat),
    (DiffEngine.compareFw i B C).missing_rules
        = (DiffEngine.compareFw i C B).extra_rules
    ∧ (DiffEngine.compareFw i B C).extra_rules
        = (DiffEngine.compareFw i C B).missing_rules
    ∧ ((DiffEngine.compareFw i B C).position_drift).map PosDrift.index
        = ((DiffEngine.compareFw i C B).position_drift).map PosDrift.index
    ∧ ((DiffEngine.compareFw i B C).parameter_drift).map ParamDrift.index
        = ((DiffEngine.compareFw i C B).parameter_drift).map ParamDrift.index := by
  intro B
  induction B with
  | nil =>
    intro C i
    rw [compareFw_nil_left, compareFw_nil_right]
    exact ⟨rfl, rfl, rfl, rfl⟩
  | cons b bs ih =>
    intro C i
    cases C with
    | nil =>
      rw [compareFw_nil_right, compareFw_nil_left]
      exact ⟨rfl, rfl, rfl, rfl⟩
    | cons c cs =>
      obtain ⟨ih1, ih2, ih3, ih4⟩ := ih cs (i + 1)
      rw [compareFw_cons, compareFw_cons]
      by_cases hbc : b = c
      · rw [if_pos hbc, if_pos hbc.symm]
        exact ⟨ih1, ih2, ih3, ih4⟩
      · have hcb : ¬c = b := fun h => hbc h.symm
        rw [if_neg hbc, if_neg hcb]
        by_cases hcm : b.comment = c.comment
        · rw [if_pos hcm, if_pos hcm.symm]
          exact ⟨ih1, ih2, by simpa using ih3, by simpa using ih4⟩
        · have hmc : ¬c.comment = b.comment := fun h => hcm h.symm
          rw [if_neg hcm, if_neg hmc]
          exact ⟨ih1, ih2, by simpa using ih3, by simpa using ih4⟩

theorem scalarWalk_mods_swap (b c : DeviceConfig) : ∀ ks,
    ((DiffEngine.scalarWalk b c ks).2.2).map Prod.fst
      = ((DiffEngine.scalarWalk c b ks).2.2).map Prod.fst := by
  intro ks
  induction ks with
  | nil => rfl
  | cons k ks ih =>
    by_cases hv : b.scalarGet k = c.scalarGet k
    · have hv' : c.scalarGet k = b.scalarGet k := hv.symm
      simp only [DiffEngine.scalarWalk, if_pos hv, if_pos hv']
      exact ih
    · have hv' : ¬c.scalarGet k = b.scalarGet k := fun h => hv h.symm
      simp only [DiffEngine.scalarWalk, if_neg hv, if_neg hv',
        DeviceConfig.dumpKeys]
      by_cases hct : k ∈ deviceDumpKeys
      · simp [hct, ih]
      · simp [hct, ih]

theorem isEmpty_eq_of_map_eq {α β γ : Type} {l : List α} {l' : List β}
    {f : α → γ} {g : β → γ} (h : l.map f = l'.map g) :
    l.isEmpty = l'.isEmpty := by
  cases l <;> cases l' <;> simp_all

theorem bagEntry_map_fst {β : Type} (k : String) (mk : List β → BagVal)
    (l : List β) :
    (DiffEngine.bagEntry k mk l).map Prod.fst
      = if l.isEmpty then [] else [k] := by
  unfold DiffEngine.bagEntry
  split <;> simp_all

theorem or_perm (a b c d e f g : Bool) :
    (!a || !b || !c || (d || e || f || g))
      = (!b || !a || !c || (d || e || g || f)) := by
  revert a b c d e f g
  decide

/-- C6: comparing in the two directions is symmetric — `has_drift` agrees,
the general `added`/`removed` bags swap, the firewall
`missing_rules`/`extra_rules` buckets swap, and the position-drift and
parameter-drift entries sit at the same indices. -/
theorem diff_swap_symmetric (x y : DeviceConfig) :
    (diff x y).hasDrift = (diff y x).hasDrift
    ∧ (diff x y).added = (diff y x).removed
    ∧ (diff x y).removed = (diff y x).added
    ∧ (diff x y).firewall_audit.missing_rules
        = (diff y x).firewall_audit.extra_rules
    ∧ (diff x y).firewall_audit.extra_rules
        = (diff y x).firewall_audit.missing_rules
    ∧ ((diff x y).firewall_audit.position_drift).map PosDrift.index
        = ((diff y x).firewall_audit.position_drift).map PosDrift.index
    ∧ ((diff x y).firewall_audit.parameter_drift).map ParamDrift.index
        = ((diff y x).firewall_audit.parameter_drift).map ParamDrift.index := by
  obtain ⟨f1, f2, f3, f4⟩ :=
    compareFw_swap x.firewall_rules y.firewall_rules 0
  have hsym_i : ∀ a b : Interface,
      interfaceChanges a b = [] ↔ interfaceChanges b a = [] := by
    intro a b
    rw [interfaceChanges_eq_nil, interfaceChanges_eq_nil]
    exact eq_comm
  have hsym_r : ∀ a b : Route,
      routeChanges a b = [] ↔ routeChanges b a = [] := by
    intro a b
    rw [routeChanges_eq_nil, routeChanges_eq_nil]
    exact eq_comm
  have hadd : (diff x y).added = (diff y x).removed := by
    rw [diff_added_eq, diff_removed_eq, ordAdded_swap, ordAdded_swap]
  have hrem : (diff x y).removed = (diff y x).added := by
    rw [diff_removed_eq, diff_added_eq, ordAdded_swap, ordAdded_swap]
  have hmi := ordMods_keys_swap interfaceChanges hsym_i 0
    x.interfaces y.interfaces
  have hmr := ordMods_keys_swap routeChanges hsym_r 0 x.routes y.routes
  have hmodmap : (diff x y).modified.map Prod.fst
      = (diff y x).modified.map Prod.fst := by
    rw [diff_modified_eq, diff_modified_eq, List.map_append, List.map_append,
      List.map_append, List.map_append, scalarWalk_mods_swap x y,
      bagEntry_map_fst, bagEntry_map_fst, bagEntry_map_fst, bagEntry_map_fst,
      isEmpty_eq_of_map_eq hmi, isEmpty_eq_of_map_eq hmr]
  have hmodE : (diff x y).modified.isEmpty = (diff y x).modified.isEmpty :=
    isEmpty_eq_of_map_eq hmodmap
  have hdrift : (diff x y).hasDrift = (diff y x).hasDrift := by
    unfold DiffReport.hasDrift DiffReport.hasFirewallDrift
    rw [hadd, hrem, hmodE, diff_fw_eq x y, diff_fw_eq y x, f1, f2,
      isEmpty_eq_of_map_eq f3, isEmpty_eq_of_map_eq f4]
    exact or_perm ((diff y x).removed.isEmpty)
      ((diff y x).added.isEmpty)
      ((diff y x).modified.isEmpty)
      (!(DiffEngine.compareFw 0 y.firewall_rules
        x.firewall_rules).position_drift.isEmpty)
      (!(DiffEngine.compareFw 0 y.firewall_rules
        x.firewall_rules).parameter_drift.isEmpty)
      (!(DiffEngine.compareFw 0 y.firewall_rules
        x.firewall_rules).extra_rules.isEmpty)
      (!(DiffEngine.compareFw 0 y.firewall_rules
        x.firewall_rules).missing_rules.isEmpty)
  refine ⟨hdrift, hadd, hrem, ?_, ?_, ?_, ?_⟩
  · rw [diff_fw_eq, diff_fw_eq]
    exact f1
  · rw [diff_fw_eq, diff_fw_eq]
    exact f2
  · rw [diff_fw_eq, diff_fw_eq]
    exact f3
  · rw [diff_fw_eq, diff_fw_eq]
    exact f4

end SentinelNet
